import Mathlib

/-!
Verification development for the `ops` CLI core: a shallow embedding of the
context-assembly / template-rendering / run-execution pipeline together with
the key-value coercion parser, the provider reference formatting, the sidecar
upsert logic and the advisory file lock, translated from the TypeScript
sources, plus theorems about the behaviour of these functions.
-/

set_option maxRecDepth 4000

/-- A JavaScript runtime value as it occurs in render contexts, sidecar
frontmatter and coerced key=value records: `undef` models the JS value
`undefined` (a key present with value `undefined`, or an absent lookup),
`float lit` abstracts an IEEE double by the decimal literal it was parsed
from (no claim in this development depends on float arithmetic). -/
inductive Value where
  | undef : Value
  | null : Value
  | bool (b : Bool) : Value
  | int (n : Int) : Value
  | float (lit : String) : Value
  | str (s : String) : Value
  | arr (xs : List Value) : Value
  | obj (fields : List (String × Value)) : Value
deriving Repr

/-- A JavaScript plain object, in insertion order (`Record<string, unknown>`). -/
abbrev Obj := List (String × Value)

/-- JS property write `o[k] = v`: replaces the value of an existing key in
place (JS objects keep the original insertion position), else appends. -/
def Obj.set (o : Obj) (k : String) (v : Value) : Obj :=
  match o with
  | [] => [(k, v)]
  | (k', v') :: rest => if k' = k then (k, v) :: rest else (k', v') :: Obj.set rest k v

/-- JS `k in o` (own properties). -/
def Obj.hasKey (o : Obj) (k : String) : Bool :=
  match o with
  | [] => false
  | (k', _) :: rest => k' = k || Obj.hasKey rest k

/-- JS property read `o[k]`: the stored value, or `undefined` when absent. -/
def Obj.getV (o : Obj) (k : String) : Value :=
  match o with
  | [] => Value.undef
  | (k', v') :: rest => if k' = k then v' else Obj.getV rest k

/-- The value the last entry of an association list gives to a key (what a
fold of JS assignments over the list leaves at that key). -/
def lookupLast (l : List (String × Value)) (k : String) : Option Value :=
  match l with
  | [] => none
  | (k', v') :: rest =>
      match lookupLast rest k with
      | some v => some v
      | none => if k' = k then some v' else none

/-- First entry of an association list for a key. -/
def lookupFirst (l : List (String × Value)) (k : String) : Option Value :=
  match l with
  | [] => none
  | (k', v') :: rest => if k' = k then some v' else lookupFirst rest k

/-- Character class of the JS regex `\s` (the cases relevant to this code
base: ASCII whitespace, NBSP and the BOM), decided on the code point. -/
def isJsSpace (c : Char) : Bool :=
  c.toNat = 32 || c.toNat = 9 || c.toNat = 10 || c.toNat = 13 ||
  c.toNat = 11 || c.toNat = 12 || c.toNat = 160 || c.toNat = 65279

/-- JS `String.prototype.trim` on a character list. -/
def trimList (l : List Char) : List Char :=
  ((l.dropWhile isJsSpace).reverse.dropWhile isJsSpace).reverse

/-- JS `String.prototype.trim`. -/
def trimS (s : String) : String :=
  String.mk (trimList s.data)

/-- JS truthiness of a float literal: false exactly for a zero value
(the literals reaching this code match `-?\d+\.\d+`). -/
def floatLitTruthy (lit : String) : Bool :=
  lit.data.any (fun c => c.isDigit && c ≠ '0')

/-- JS truthiness (`!!v`). -/
def truthy : Value → Bool
  | Value.undef => false
  | Value.null => false
  | Value.bool b => b
  | Value.int n => n ≠ 0
  | Value.float lit => floatLitTruthy lit
  | Value.str s => s ≠ ""
  | Value.arr _ => true
  | Value.obj _ => true

/-! ## Template renderer (`template.ts`) -/

/-- JS `Array.prototype.join` conversion of one element: `null`/`undefined`
join as the empty string, nested arrays as their own comma-join, plain
objects as `[object Object]`, primitives via `String(...)`. -/
def jsJoinElem : Value → String
  | Value.undef => ""
  | Value.null => ""
  | Value.bool b => cond b "true" "false"
  | Value.int n => toString n
  | Value.float lit => lit
  | Value.str s => s
  | Value.obj _ => "[object Object]"
  | Value.arr xs => String.intercalate "," (xs.attach.map (fun c => jsJoinElem c.1))
decreasing_by
  simp_wf
  have := List.sizeOf_lt_of_mem c.2
  omega

/-- Is this JS value `undefined`? -/
def isUndefV : Value → Bool
  | Value.undef => true
  | _ => false

/-- JSON string escaping of one character. -/
def jsonEscapeChar (c : Char) : List Char :=
  if c = '"' then ['\\', '"']
  else if c = '\\' then ['\\', '\\']
  else if c.toNat = 10 then ['\\', 'n']
  else if c.toNat = 13 then ['\\', 'r']
  else if c.toNat = 9 then ['\\', 't']
  else if c.toNat = 8 then ['\\', 'b']
  else if c.toNat = 12 then ['\\', 'f']
  else if c.toNat < 32 then
    ['\\', 'u', '0', '0', (Nat.digitChar (c.toNat / 16)), (Nat.digitChar (c.toNat % 16))]
  else [c]

/-- A JSON string literal for `s`. -/
def jsonQuote (s : String) : String :=
  String.mk ('"' :: (s.data.map jsonEscapeChar).flatten ++ ['"'])

/-- JS `JSON.stringify` (compact form): fields holding `undefined` are
dropped from objects; `undefined` inside an array serializes as `null`
(the top-level-`undefined` case is unreachable from `stringifyValue`). -/
def jsonStringify : Value → String
  | Value.undef => "null"
  | Value.null => "null"
  | Value.bool b => cond b "true" "false"
  | Value.int n => toString n
  | Value.float lit => lit
  | Value.str s => jsonQuote s
  | Value.arr xs =>
      "[" ++ String.intercalate "," (xs.attach.map (fun c => jsonStringify c.1)) ++ "]"
  | Value.obj fs =>
      "\x7b" ++ String.intercalate ","
        (((fs.filter (fun p => !isUndefV p.2)).attach.map
          (fun c => jsonQuote c.1.1 ++ ":" ++ jsonStringify c.1.2))) ++ "\x7d"
decreasing_by
  · simp_wf
    have := List.sizeOf_lt_of_mem c.2
    omega
  · simp_wf
    have h1 := List.sizeOf_lt_of_mem (List.mem_of_mem_filter c.2)
    have h2 : sizeOf c.1.2 < sizeOf c.1 := by
      obtain ⟨k, v⟩ := c.1
      simp
    omega

/-- `stringifyValue` from `template.ts`: `null`/`undefined` become the empty
string, arrays a `", "`-join, plain objects compact JSON, all other values
their `String(...)` form. -/
def stringifyValue : Value → String
  | Value.null => ""
  | Value.undef => ""
  | Value.arr xs => String.intercalate ", " (xs.map jsJoinElem)
  | Value.obj fs => jsonStringify (Value.obj fs)
  | Value.bool b => cond b "true" "false"
  | Value.int n => toString n
  | Value.float lit => lit
  | Value.str s => s

/-- Numeric value of a digit run. -/
def digitsToNat (l : List Char) : Nat :=
  l.foldl (fun acc c => acc * 10 + (c.toNat - 48)) 0

/-- Is `p` a canonical JS array-index string (`"0"`, `"1"`, ... with no
leading zero)? Those are exactly the own index properties of an array. -/
def canonicalIndex (p : String) : Option Nat :=
  if p = "" then none
  else if !(p.data.all Char.isDigit) then none
  else if p.data.length > 1 ∧ p.data.head? = some '0' then none
  else some (digitsToNat p.data)

/-- One step of the dotted-path walk of `getByPath`: JS `current[p]` guarded
by `typeof current === "object" && current !== null && p in current`
(own properties; for arrays the own properties are the canonical indices
and `length`). Any failure yields `undefined`. -/
def getPart (current : Value) (p : String) : Value :=
  match current with
  | Value.obj fields => (lookupFirst fields p).getD Value.undef
  | Value.arr xs =>
      if p = "length" then Value.int xs.length
      else
        match canonicalIndex p with
        | some i => (xs[i]?).getD Value.undef
        | none => Value.undef
  | _ => Value.undef

/-- JS `key.split(".")` on a character list (`"" → [""]`, `"a..b" →
["a", "", "b"]`). -/
def splitOnDot : List Char → List (List Char)
  | [] => [[]]
  | '.' :: rest => [] :: splitOnDot rest
  | c :: rest =>
      match splitOnDot rest with
      | [] => [[c]]
      | p :: ps => (c :: p) :: ps

/-- `getByPath` from `template.ts`: split the key on `.` and walk. -/
def getByPath (ctx : Obj) (key : String) : Value :=
  ((splitOnDot key.data).map String.mk).foldl getPart (Value.obj ctx)

/-- The test `value === undefined || value === null || value === ""` of
`renderTemplate`'s substitution callback. -/
def isAbsentValue : Value → Bool
  | Value.undef => true
  | Value.null => true
  | Value.str s => s = ""
  | _ => false

/-- The body of `renderTemplate`'s substitution callback after the key and
fallback have been trimmed: the replacement text, and whether the key was
recorded in `missingRequired`. -/
def renderCallback (ctx : Obj) (key : String) (fallback : Option String) : String × Bool :=
  let value := getByPath ctx key
  if isAbsentValue value then
    match fallback with
    | some fb => (fb, false)
    | none => ("", true)
  else (stringifyValue value, false)

/-- The character class `[a-zA-Z0-9_.-]` of `PLACEHOLDER_RE`. -/
def isKeyChar (c : Char) : Bool :=
  (97 ≤ c.toNat && c.toNat ≤ 122) || (65 ≤ c.toNat && c.toNat ≤ 90) ||
  (48 ≤ c.toNat && c.toNat ≤ 57) || c.toNat = 95 || c.toNat = 46 || c.toNat = 45

/-- Deterministic equivalent of matching
`\s*([a-zA-Z0-9_.-]+)(?:\|([^}]*))?\s*\}\}` (the part of `PLACEHOLDER_RE`
after the opening braces) at the start of `cs`: returns the raw key, the
raw fallback when a `|` immediately follows the key, and the rest of the
input after the closing braces.  Backtracking is resolved away: the
whitespace run, the key and the `[^}]*` run are all maximal, and with a
fallback the first `}` after the `|` must start the closing `}}` (giving
shorter runs back to the engine never helps, since the character classes
involved are pairwise disjoint).  Split into three defs: `parseFb` is the
fallback capture `\|([^}]*)\}\}`, `parseTail` everything after the key,
`parsePH` the whole. -/
def parseFb (key fbStart : List Char) : Option (List Char × Option (List Char) × List Char) :=
  match fbStart.dropWhile (· != '}') with
  | '}' :: '}' :: rest => some (key, some (fbStart.takeWhile (· != '}')), rest)
  | _ => none

/-- The part of the match after the key: a `|` directly after the key starts
the fallback capture; otherwise trailing whitespace and the closing braces
must follow. -/
def parseTail (key afterKey : List Char) : Option (List Char × Option (List Char) × List Char) :=
  match afterKey with
  | '|' :: fbStart => parseFb key fbStart
  | _ =>
      (match afterKey.dropWhile isJsSpace with
       | '}' :: '}' :: rest => some (key, none, rest)
       | _ => none)

def parsePH (cs : List Char) : Option (List Char × Option (List Char) × List Char) :=
  let afterWs := cs.dropWhile isJsSpace
  let key := afterWs.takeWhile isKeyChar
  let afterKey := afterWs.dropWhile isKeyChar
  if key.isEmpty then none
  else parseTail key afterKey

/-- Accumulator of the render scan: output text so far and the two
insertion-ordered sets (`missingRequired`, `placeholdersUsed`). -/
structure RState where
  acc : List Char
  missing : List String
  used : List String
deriving Repr

/-- JS `Set.prototype.add`: append if not already present. -/
def addOnce (l : List String) (s : String) : List String :=
  if s ∈ l then l else l ++ [s]

/-- The scan of `template.replace(PLACEHOLDER_RE, callback)`: find the
leftmost match, replace it, continue right after it; after a failed match
attempt at a `{{` the scan advances one character, as the regex engine
does.  `fuel` only serves termination and is initialised to the input
length (each step consumes at least one character). -/
def renderLoop (ctx : Obj) : Nat → List Char → RState → RState
  | 0, cs, st => { st with acc := st.acc ++ cs }
  | _ + 1, [], st => st
  | fuel + 1, '{' :: '{' :: rest, st =>
      (match parsePH rest with
       | some (keyRaw, fbRaw, rest') =>
           let key := trimS (String.mk keyRaw)
           let fb := (fbRaw.map (fun l => trimS (String.mk l)))
           let r := renderCallback ctx key fb
           renderLoop ctx fuel rest'
             { acc := st.acc ++ r.1.data,
               missing := if r.2 then addOnce st.missing key else st.missing,
               used := addOnce st.used key }
       | none => renderLoop ctx fuel ('{' :: rest) { st with acc := st.acc ++ ['{'] })
  | fuel + 1, c :: cs, st => renderLoop ctx fuel cs { st with acc := st.acc ++ [c] }

/-- `RenderResult` from `types.ts`. -/
structure RenderResult where
  text : String
  missingRequired : List String
  placeholdersUsed : List String
deriving Repr, DecidableEq

/-- `renderTemplate` from `template.ts`. -/
def renderTemplate (template : String) (context : Obj) : RenderResult :=
  let st := renderLoop context template.data.length template.data ⟨[], [], []⟩
  { text := String.mk st.acc, missingRequired := st.missing, placeholdersUsed := st.used }

/-! ## Item types (`types.ts`) -/

/-- `ItemKind` from `types.ts`. -/
inductive ItemKind where
  | issue : ItemKind
  | pr : ItemKind
  | task : ItemKind
deriving Repr, DecidableEq

/-- The string form of an `ItemKind` (its TS value). -/
def ItemKind.toStr : ItemKind → String
  | ItemKind.issue => "issue"
  | ItemKind.pr => "pr"
  | ItemKind.task => "task"

/-- `ItemProviderId` from `types.ts` (`ProviderId | "local"`). -/
inductive ItemProviderId where
  | github : ItemProviderId
  | gitlab : ItemProviderId
  | jira : ItemProviderId
  | azure : ItemProviderId
  | local : ItemProviderId
deriving Repr, DecidableEq

/-- The string form of an `ItemProviderId` (its TS value). -/
def ItemProviderId.toStr : ItemProviderId → String
  | ItemProviderId.github => "github"
  | ItemProviderId.gitlab => "gitlab"
  | ItemProviderId.jira => "jira"
  | ItemProviderId.azure => "azure"
  | ItemProviderId.local => "local"

/-- `RemoteLabel` from `types.ts`. -/
structure RemoteLabel where
  name : String
deriving Repr, DecidableEq

/-- `RemoteUser` from `types.ts`. -/
structure RemoteUser where
  login : String
deriving Repr, DecidableEq

/-- `RemoteItem` from `types.ts`: the normalized snapshot a provider
adapter returns (optional TS fields become `Option`). -/
structure RemoteItem where
  provider : Option ItemProviderId
  kind : ItemKind
  key : Option String
  repo : Option String
  number : Option Int
  title : String
  body : String
  author : Option String
  state : Option String
  url : Option String
  labels : List RemoteLabel
  assignees : List RemoteUser
  updatedAt : String
  headRefName : Option String
  baseRefName : Option String
  sourcePath : Option String
deriving Repr, DecidableEq

/-! ## Key-value coercion parser (`parse.ts`) -/

/-- Digit-run test, JS `/^\d+$/`. -/
def digitsOnly (l : List Char) : Bool :=
  !l.isEmpty && l.all Char.isDigit

/-- JS `/^-?\d+$/.test s`. -/
def matchesIntRe (s : String) : Bool :=
  match s.data with
  | '-' :: rest => digitsOnly rest
  | l => digitsOnly l

/-- JS `/^-?\d+\.\d+$/.test s`. -/
def matchesFloatRe (s : String) : Bool :=
  match splitOnDot s.data with
  | [a, b] =>
      (match a with
       | '-' :: rest => digitsOnly rest
       | l => digitsOnly l) && digitsOnly b
  | _ => false

/-- `Number.parseInt` on a string already known to match `-?\d+`
(integer values are modelled exactly; the `Number.isNaN` guard in the
source is vacuous for such strings). -/
def toIntList (l : List Char) : Int :=
  match l with
  | '-' :: rest => -(digitsToNat rest : Int)
  | _ => (digitsToNat l : Int)

/-- First character of a string. -/
def headChar (s : String) : Option Char := s.data.head?

/-- Last character of a string. -/
def lastChar (s : String) : Option Char := s.data.getLast?

/-- `parseValue` from `parse.ts`.  `jsonParse` abstracts the runtime's
`JSON.parse` (external to this code base); `none` models a parse throw. -/
def parseValue (jsonParse : String → Option Value) (raw : String) : Value :=
  let value := trimS raw
  if value = "true" then Value.bool true
  else if value = "false" then Value.bool false
  else if value = "null" then Value.null
  else if matchesIntRe value then Value.int (toIntList value.data)
  else if matchesFloatRe value then Value.float value
  else if (headChar value = some '[' && lastChar value = some ']') ||
          (headChar value = some '\x7b' && lastChar value = some '\x7d') then
    match jsonParse value with
    | some v => v
    | none => Value.str raw
  else Value.str raw

/-- Split on the first `=` (JS `indexOf("=")` and two slices). -/
def splitFirstEq : List Char → Option (List Char × List Char)
  | [] => none
  | c :: rest =>
      if c = '=' then some ([], rest)
      else (splitFirstEq rest).map (fun p => (c :: p.1, p.2))

/-- `parseKeyValuePairs` from `parse.ts`: thrown `Error`s become
`Except.error` carrying the message. -/
def parseKeyValuePairs (jsonParse : String → Option Value) (pairs : List String)
    (coerce : Bool) : Except String Obj :=
  pairs.foldlM
    (fun result pair =>
      match splitFirstEq pair.data with
      | none => Except.error ("Invalid key=value pair: " ++ pair)
      | some (k0, vChars) =>
          let key := trimS (String.mk k0)
          let value := String.mk vChars
          if key = "" then Except.error ("Invalid key in pair: " ++ pair)
          else Except.ok (Obj.set result key
            (if coerce then parseValue jsonParse value else Value.str value)))
    []

/-! ## Path and identity resolution (`paths.ts`) -/

/-- The class `[a-z0-9]` of the slug regex. -/
def isSlugChar (c : Char) : Bool :=
  (97 ≤ c.toNat && c.toNat ≤ 122) || (48 ≤ c.toNat && c.toNat ≤ 57)

/-- Collapse every run of `-` to a single `-` (the effect of replacing
`[^a-z0-9]+` runs after each bad character was mapped to `-`). -/
def collapseDashes : List Char → List Char
  | [] => []
  | [c] => [c]
  | c1 :: c2 :: rest =>
      if c1 = '-' ∧ c2 = '-' then collapseDashes (c2 :: rest)
      else c1 :: collapseDashes (c2 :: rest)

/-- `toSlug` from `paths.ts`: lowercase, collapse non-alphanumeric runs to
single hyphens, strip leading/trailing hyphens, cap at 56 characters. -/
def toSlug (value : String) : String :=
  let lowered := value.data.map (fun c => c.toLower)
  let dashed := lowered.map (fun c => if isSlugChar c then c else '-')
  let collapsed := collapseDashes dashed
  let trimmed := ((collapsed.dropWhile (· = '-')).reverse.dropWhile (· = '-')).reverse
  String.mk (trimmed.take 56)

/-- `itemPath` from `paths.ts`.  `sha1hex` abstracts
`createHash("sha1").update(key).digest("hex")` from `node:crypto`;
only its first 8 characters are used. -/
def itemPath (sha1hex : String → String) (kind : ItemKind) (key : String) : String :=
  let trimmed := trimS key
  if digitsOnly trimmed.data then
    "items/" ++ kind.toStr ++ "-" ++ trimmed ++ ".md"
  else
    let slug := if toSlug trimmed = "" then "item" else toSlug trimmed
    let hash := String.mk ((sha1hex trimmed).data.take 8)
    "items/" ++ kind.toStr ++ "-" ++ slug ++ "-" ++ hash ++ ".md"

/-! ## Advisory file lock (`store.ts`) -/

/-- The two failure modes of `acquireLock`, distinguished in the source by
the thrown `Error`'s message (`"Another ops process (PID ...) holds the
lock. ..."` vs `"Failed to acquire ops lock at ..."`). -/
inductive LockError where
  | lockHeld (pid : Int) : LockError
  | acquisitionFailed : LockError
deriving Repr, DecidableEq

/-- JS `parseInt(s, 10)`: optional sign, then a leading digit run (trailing
junk ignored); `none` models `NaN`. -/
def parseIntJs (l : List Char) : Option Int :=
  let leadDigits := fun (d : List Char) =>
    let run := d.takeWhile Char.isDigit
    if run.isEmpty then none else some (digitsToNat run)
  match l with
  | '-' :: rest => (leadDigits rest).map (fun n => -(n : Int))
  | '+' :: rest => (leadDigits rest).map (fun n => (n : Int))
  | _ => (leadDigits l).map (fun n => (n : Int))

/-- `acquireLock` from `store.ts`, as a function of what the file system
shows at its three observation points (other processes may change the
marker between them): `m1` is the marker content at the first exclusive
create (`none` means the create succeeds), `m2` the content at the
`readFileSync` (`none` means the file vanished mid-check and the read
threw), and `m3` the marker freshly present at the retried create after
our unlink (`none` means the retry succeeds).  `alive` is the
`isProcessAlive` probe. -/
def acquireLock (alive : Int → Bool) (m1 m2 m3 : Option String) : Except LockError Unit :=
  match m1 with
  | none => Except.ok ()
  | some _ =>
      let heldBy : Option Int :=
        match m2 with
        | none => none
        | some content =>
            match parseIntJs (trimS content).data with
            | none => none
            | some p => if alive p then some p else none
      match heldBy with
      | some p => Except.error (LockError.lockHeld p)
      | none =>
          match m3 with
          | none => Except.ok ()
          | some _ => Except.error LockError.acquisitionFailed

/-! ## Provider reference strings (`providers/{github,gitlab,jira,azure}.ts`) -/

/-- JS template-literal form of a possibly-undefined string
(`undefined` interpolates as `"undefined"`). -/
def jsOptS (o : Option String) : String := o.getD "undefined"

/-- JS template-literal form of a possibly-undefined number. -/
def jsOptI : Option Int → String
  | some n => toString n
  | none => "undefined"

/-- `itemRef` from `providers/github.ts`. -/
def githubItemRef (item : RemoteItem) : String :=
  if item.kind = ItemKind.issue then jsOptS item.repo ++ "#" ++ jsOptI item.number
  else jsOptS item.repo ++ "#PR" ++ jsOptI item.number

/-- `itemRef` from `providers/gitlab.ts`. -/
def gitlabItemRef (item : RemoteItem) : String :=
  if item.kind = ItemKind.issue then jsOptS item.repo ++ "#" ++ jsOptI item.number
  else jsOptS item.repo ++ "!" ++ jsOptI item.number

/-- `itemRef` from `providers/jira.ts`. -/
def jiraItemRef (item : RemoteItem) : String :=
  jsOptS item.repo ++ "-" ++ jsOptI item.number

/-- `itemRef` from `providers/azure.ts`. -/
def azureItemRef (item : RemoteItem) : String :=
  if item.kind = ItemKind.issue then jsOptS item.repo ++ "#" ++ jsOptI item.number
  else jsOptS item.repo ++ "#PR" ++ jsOptI item.number

/-- `providerItemRef` from `providers/index.ts`: local items use
`sourcePath ?? key ?? title`, everything else dispatches on
`item.provider ?? "github"` through the fixed `PROVIDERS` table (the
`local` row of the final match is unreachable: the guard above it has
already handled `provider === "local"`). -/
def providerItemRef (item : RemoteItem) : String :=
  if item.provider = some ItemProviderId.local ∨ item.kind = ItemKind.task then
    (item.sourcePath.orElse (fun _ => item.key)).getD item.title
  else
    match item.provider with
    | some ItemProviderId.gitlab => gitlabItemRef item
    | some ItemProviderId.jira => jiraItemRef item
    | some ItemProviderId.azure => azureItemRef item
    | _ => githubItemRef item

/-! ## HTML stripping and provider body conversion
(`providers/http.ts`, `providers/jira.ts`, `providers/azure.ts`) -/

/-- One regex-replacement pass: at each position, `m` either matches a
prefix (giving the replacement and the rest after the match) or the
character is copied.  `fuel` only serves termination and is initialised
to the input length. -/
def scanReplace (m : List Char → Option (List Char × List Char)) :
    Nat → List Char → List Char
  | 0, cs => cs
  | _ + 1, [] => []
  | fuel + 1, c :: rest =>
      match m (c :: rest) with
      | some (rep, rest') => rep ++ scanReplace m fuel rest'
      | none => c :: scanReplace m fuel rest

/-- Match of `/<br\s*\/?>/i` at the start of the input. -/
def matchBrTag : List Char → Option (List Char × List Char)
  | '<' :: b :: r :: rest =>
      if (b = 'b' ∨ b = 'B') ∧ (r = 'r' ∨ r = 'R') then
        match rest.dropWhile isJsSpace with
        | '/' :: '>' :: rest' => some (['\n'], rest')
        | '>' :: rest' => some (['\n'], rest')
        | _ => none
      else none
  | _ => none

/-- Match of `/<\/p>/i` at the start of the input. -/
def matchClosingP : List Char → Option (List Char × List Char)
  | '<' :: '/' :: p :: '>' :: rest =>
      if p = 'p' ∨ p = 'P' then some (['\n'], rest) else none
  | _ => none

/-- Match of `/<[^>]+>/` at the start of the input: a `<`, at least one
non-`>` character, then `>`. -/
def matchTag : List Char → Option (List Char × List Char)
  | '<' :: rest =>
      (match rest.dropWhile (· != '>') with
       | '>' :: rest' => if (rest.takeWhile (· != '>')).isEmpty then none else some ([], rest')
       | _ => none)
  | _ => none

/-- Match of a literal pattern at the start of the input, replaced by `rep`. -/
def matchLit (pat rep : List Char) (cs : List Char) : Option (List Char × List Char) :=
  if pat.isPrefixOf cs then some (rep, cs.drop pat.length) else none

/-- Run one replacement pass over a whole character list. -/
def runPass (m : List Char → Option (List Char × List Char)) (cs : List Char) : List Char :=
  scanReplace m cs.length cs

/-- `stripHtml` from `providers/http.ts`: the six chained `replace` passes
followed by `trim`. -/
def stripHtml (input : String) : String :=
  let s1 := runPass matchBrTag input.data
  let s2 := runPass matchClosingP s1
  let s3 := runPass matchTag s2
  let s4 := runPass (matchLit "&nbsp;".data " ".data) s3
  let s5 := runPass (matchLit "&amp;".data "&".data) s4
  let s6 := runPass (matchLit "&lt;".data "<".data) s5
  let s7 := runPass (matchLit "&gt;".data ">".data) s6
  String.mk (trimList s7)

/-- A node of Jira's rich-text (ADF) description tree
(`JiraDescriptionNode` from `providers/jira.ts`). -/
inductive JiraNode where
  | mk (ntype : Option String) (text : Option String) (content : Option (List JiraNode)) :
      JiraNode
deriving Repr

/-- `jiraDescriptionToText` from `providers/jira.ts`: leaf text wins,
childless nodes flatten to the empty string, children are flattened
recursively, empty results dropped, joined with a newline for
paragraph/list-item nodes, and trimmed. -/
def jiraDescriptionToText : Option JiraNode → String
  | none => ""
  | some (JiraNode.mk ntype text content) =>
      match text with
      | some t => t
      | none =>
          match content with
          | none => ""
          | some [] => ""
          | some cs =>
              let sep := if ntype = some "paragraph" ∨ ntype = some "listItem" then "\n" else ""
              trimS (String.intercalate sep
                ((cs.attach.map (fun c => jiraDescriptionToText (some c.1))).filter
                  (fun s => s ≠ "")))
decreasing_by
  simp_wf
  have := List.sizeOf_lt_of_mem c.2
  omega

/-- `JiraUser` from `providers/jira.ts`. -/
structure JiraUser where
  accountId : Option String
  displayName : Option String
  emailAddress : Option String
deriving Repr

/-- The `fields` part of `JiraIssueResponse`; the optional chains
`fields.status?.name` and `fields.project?.key` are flattened into single
optional fields, which is observationally the same. -/
structure JiraIssueFields where
  summary : Option String
  description : Option JiraNode
  statusName : Option String
  assignee : Option JiraUser
  reporter : Option JiraUser
  labels : Option (List String)
  updated : Option String
  projectKey : Option String
deriving Repr

/-- `JiraIssueResponse` from `providers/jira.ts`. -/
structure JiraIssueResponse where
  id : String
  key : String
  fields : JiraIssueFields
deriving Repr

/-- `resolveProjectKey` from `providers/jira.ts` (`envJiraProject` models
`optionalEnv("JIRA_PROJECT")`). -/
def resolveProjectKey (repo : Option String) (envJiraProject : Option String) : Option String :=
  match repo with
  | some r => if trimS r ≠ "" then some (trimS r) else envJiraProject
  | none => envJiraProject

/-- The pure tail of `fetchJiraItem`: how a fetched `JiraIssueResponse` is
translated into a `RemoteItem` (`base` is the resolved `JIRA_BASE_URL`,
`nowIso` models `new Date().toISOString()`). -/
def jiraIssueToRemoteItem (base : String) (inputNumber : Int) (inputRepo : Option String)
    (envJiraProject : Option String) (nowIso : String) (issue : JiraIssueResponse) :
    RemoteItem :=
  let projectKey :=
    issue.fields.projectKey.getD ((resolveProjectKey inputRepo envJiraProject).getD "jira")
  let description := jiraDescriptionToText issue.fields.description
  let author :=
    (issue.fields.reporter.bind
      (fun r => (r.displayName.orElse (fun _ => r.emailAddress)).orElse
        (fun _ => r.accountId))).getD ""
  let assigneeLogin :=
    (issue.fields.assignee.bind
      (fun a => (a.displayName.orElse (fun _ => a.emailAddress)).orElse
        (fun _ => a.accountId))).getD ""
  { provider := some ItemProviderId.jira, kind := ItemKind.issue, key := none,
    repo := some projectKey, number := some inputNumber,
    title := issue.fields.summary.getD issue.key,
    body := description,
    author := some author,
    state := some (issue.fields.statusName.getD ""),
    url := some (base ++ "/browse/" ++ issue.key),
    labels := ((issue.fields.labels.getD []).map RemoteLabel.mk).filter (fun x => x.name ≠ ""),
    assignees := if assigneeLogin ≠ "" then [RemoteUser.mk assigneeLogin] else [],
    updatedAt := issue.fields.updated.getD nowIso,
    headRefName := none, baseRefName := none, sourcePath := none }

/-- `AzureIdentity` from `providers/azure.ts`. -/
structure AzureIdentity where
  displayName : Option String
  uniqueName : Option String
deriving Repr

/-- `AzureWorkItemResponse` from `providers/azure.ts`; `linksHtmlHref`
flattens `_links?.html?.href`. -/
structure AzureWorkItemResponse where
  id : Int
  fields : Obj
  linksHtmlHref : Option String
deriving Repr

/-- `AzurePullRequestResponse` from `providers/azure.ts`; `linksWebHref`
flattens `_links?.web?.href`. -/
structure AzurePullRequestResponse where
  pullRequestId : Int
  title : String
  description : Option String
  status : Option String
  sourceRefName : Option String
  targetRefName : Option String
  creationDate : Option String
  closedDate : Option String
  createdBy : Option AzureIdentity
  reviewers : Option (List AzureIdentity)
  linksWebHref : Option String
deriving Repr

/-- `AzureScope` from `providers/azure.ts`. -/
structure AzureScope where
  organization : String
  project : String
  repository : Option String
deriving Repr

/-- `asString` from `providers/azure.ts`. -/
def asString (v : Value) : String :=
  match v with
  | Value.str s => s
  | _ => ""

/-- The string stored at a key of an identity object, when it is one. -/
def asOptStr (v : Value) : Option String :=
  match v with
  | Value.str s => some s
  | _ => none

/-- `asIdentity` from `providers/azure.ts`: falsy or non-object values give
`undefined`; arrays pass the `typeof`-object guard but carry no identity
fields. -/
def asIdentity (v : Value) : Option AzureIdentity :=
  match v with
  | Value.obj fs => some ⟨asOptStr (Obj.getV fs "displayName"), asOptStr (Obj.getV fs "uniqueName")⟩
  | Value.arr _ => some ⟨none, none⟩
  | _ => none

/-- Unreserved characters of JS `encodeURIComponent`. -/
def isUriUnreserved (c : Char) : Bool :=
  (97 ≤ c.toNat && c.toNat ≤ 122) || (65 ≤ c.toNat && c.toNat ≤ 90) ||
  (48 ≤ c.toNat && c.toNat ≤ 57) || c.toNat = 45 || c.toNat = 95 || c.toNat = 46 ||
  c.toNat = 33 || c.toNat = 126 || c.toNat = 42 || c.toNat = 39 || c.toNat = 40 ||
  c.toNat = 41

/-- UTF-8 bytes of a scalar value. -/
def utf8Bytes (n : Nat) : List Nat :=
  if n < 128 then [n]
  else if n < 2048 then [192 + n / 64, 128 + n % 64]
  else if n < 65536 then [224 + n / 4096, 128 + (n / 64) % 64, 128 + n % 64]
  else [240 + n / 262144, 128 + (n / 4096) % 64, 128 + (n / 64) % 64, 128 + n % 64]

/-- An uppercase hex digit. -/
def hexDigitUpper (n : Nat) : Char :=
  if n < 10 then Nat.digitChar n else Char.ofNat (55 + n)

/-- JS `encodeURIComponent` (scalar code points; lone surrogates cannot
occur in a Lean `String`). -/
def encodeURIComponentJs (s : String) : String :=
  String.mk ((s.data.map (fun c =>
    if isUriUnreserved c then [c]
    else ((utf8Bytes c.toNat).map
      (fun b => ['%', hexDigitUpper (b / 16), hexDigitUpper (b % 16)])).flatten)).flatten)

/-- `baseUrl` from `providers/azure.ts`. -/
def azureBaseUrl (scope : AzureScope) : String :=
  "https://dev.azure.com/" ++ encodeURIComponentJs scope.organization ++ "/" ++
    encodeURIComponentJs scope.project

/-- `splitTags` from `providers/azure.ts`. -/
def splitTags (tags : String) : List RemoteLabel :=
  ((tags.splitOn ";").map trimS).filter (fun s => s ≠ "") |>.map RemoteLabel.mk

/-- `refs/heads/` stripping of `sourceRefName`/`targetRefName`
(`replace(/^refs\/heads\//, "")`). -/
def stripRefsHeads (s : String) : String :=
  let pat := "refs/heads/".data
  if pat.isPrefixOf s.data then String.mk (s.data.drop pat.length) else s

/-- The pure tail of `fetchAzureItem` for work items (`kind === "issue"`):
the fetched response translated into a `RemoteItem`.  The work-item
description passes through `stripHtml`. -/
def azureWorkItemToRemoteItem (scope : AzureScope) (nowIso : String)
    (w : AzureWorkItemResponse) : RemoteItem :=
  let fields := w.fields
  let title := asString (Obj.getV fields "System.Title")
  let state := asString (Obj.getV fields "System.State")
  let descriptionRaw := asString (Obj.getV fields "System.Description")
  let author := asIdentity (Obj.getV fields "System.CreatedBy")
  let assignee := asIdentity (Obj.getV fields "System.AssignedTo")
  let tags := asString (Obj.getV fields "System.Tags")
  let changed := asString (Obj.getV fields "System.ChangedDate")
  { provider := some ItemProviderId.azure, kind := ItemKind.issue, key := none,
    repo := some (scope.organization ++ "/" ++ scope.project),
    number := some w.id, title := title,
    body := stripHtml descriptionRaw,
    author := some ((author.bind
      (fun a => a.uniqueName.orElse (fun _ => a.displayName))).getD ""),
    state := some state,
    url := some (w.linksHtmlHref.getD
      (azureBaseUrl scope ++ "/_workitems/edit/" ++ toString w.id)),
    labels := if tags ≠ "" then splitTags tags else [],
    assignees :=
      (match assignee with
       | none => []
       | some a =>
           [RemoteUser.mk ((a.uniqueName.orElse (fun _ => a.displayName)).getD "")].filter
             (fun x => x.login ≠ "")),
    updatedAt := if changed ≠ "" then changed else nowIso,
    headRefName := none, baseRefName := none, sourcePath := none }

/-- The pure tail of `fetchAzureItem` for pull requests: the fetched
response translated into a `RemoteItem` (`repository` is the value of
`scope.repository` the source has already checked to be present).  The
PR description is assigned with `?? ""` only. -/
def azurePrToRemoteItem (scope : AzureScope) (repository : String) (nowIso : String)
    (pr : AzurePullRequestResponse) : RemoteItem :=
  { provider := some ItemProviderId.azure, kind := ItemKind.pr, key := none,
    repo := some (scope.organization ++ "/" ++ scope.project ++ "/" ++ repository),
    number := some pr.pullRequestId, title := pr.title,
    body := pr.description.getD "",
    author := some ((pr.createdBy.bind
      (fun a => a.uniqueName.orElse (fun _ => a.displayName))).getD ""),
    state := some (pr.status.getD ""),
    url := some (pr.linksWebHref.getD
      (azureBaseUrl scope ++ "/_git/" ++ encodeURIComponentJs repository ++
        "/pullrequest/" ++ toString pr.pullRequestId)),
    labels := [],
    assignees := ((pr.reviewers.getD []).map
      (fun x => RemoteUser.mk ((x.uniqueName.orElse (fun _ => x.displayName)).getD ""))).filter
      (fun x => x.login ≠ ""),
    updatedAt := (pr.closedDate.orElse (fun _ => pr.creationDate)).getD nowIso,
    headRefName := pr.sourceRefName.map stripRefsHeads,
    baseRefName := pr.targetRefName.map stripRefsHeads,
    sourcePath := none }

/-! ## The external document store and the sidecar upsert (`ops-data.ts`) -/

/-- A document of the external store: type, frontmatter and body. -/
structure StoreDoc where
  dtype : String
  frontmatter : Obj
  body : String
deriving Repr

/-- The external store as a path-indexed document list. -/
abbrev Store := List (String × StoreDoc)

/-- Modelled from the spec: `read(path) -> {frontmatter, body} | error` of
the excluded `@callumalpass/mdbase` document store (§6); `none` models the
error result for a missing document. -/
def Store.read : Store → String → Option StoreDoc
  | [], _ => none
  | (p, d) :: rest, path => if p = path then some d else Store.read rest path

/-- Modelled from the spec: `create(type, path, frontmatter, body) -> ok |
error` of the excluded store (§6); creating an existing path errors. -/
def Store.create (s : Store) (dtype path : String) (fm : Obj) (body : String) :
    Except String Store :=
  match Store.read s path with
  | some _ => Except.error ("path already exists: " ++ path)
  | none => Except.ok (s ++ [(path, ⟨dtype, fm, body⟩)])

/-- Modelled from the spec: `update(path, fields) -> ok | error` of the
excluded store (§6): merge the given fields into the document's
frontmatter, leaving all other fields and the body alone
("merge-without-clobber", §8 scenario 5); a missing path errors. -/
def Store.update : Store → String → Obj → Except String Store
  | [], path, _ => Except.error ("path not found: " ++ path)
  | (p, d) :: rest, path, fields =>
      if p = path then
        Except.ok ((p,
          { d with frontmatter := fields.foldl (fun o kv => Obj.set o kv.1 kv.2) d.frontmatter })
          :: rest)
      else (Store.update rest path fields).map (fun s' => (p, d) :: s')

/-- `resolveItemKey` from `ops-data.ts`. -/
def resolveItemKey (item : RemoteItem) : Except String String :=
  let fromNumber : Except String String :=
    match item.number with
    | some n => Except.ok (toString n)
    | none => Except.error ("Cannot derive key for item kind '" ++ item.kind.toStr ++ "'.")
  match item.key with
  | some k => if trimS k ≠ "" then Except.ok (trimS k) else fromNumber
  | none => fromNumber

/-- `makeItemId` from `ops-data.ts` (`item.repo` is tested for JS
truthiness, so an empty repo string counts as absent). -/
def makeItemId (item : RemoteItem) (key : String) : String :=
  let provider := (item.provider.getD ItemProviderId.local).toStr
  if item.provider.getD ItemProviderId.local = ItemProviderId.local ∨ item.kind = ItemKind.task
  then "local:task:" ++ key
  else
    let repoT := item.repo.bind (fun r => if r ≠ "" then some r else none)
    match repoT, item.number with
    | some repo, some n => provider ++ ":" ++ repo ++ ":" ++ item.kind.toStr ++ ":" ++ toString n
    | some repo, none => provider ++ ":" ++ repo ++ ":" ++ item.kind.toStr ++ ":" ++ key
    | none, _ => provider ++ ":" ++ item.kind.toStr ++ ":" ++ key

/-- The value of an optional string field as stored in frontmatter. -/
def optStrToValue : Option String → Value
  | some s => Value.str s
  | none => Value.undef

/-- The value of an optional number field as stored in frontmatter. -/
def optIntToValue : Option Int → Value
  | some n => Value.int n
  | none => Value.undef

/-- The `remoteFields` record literal of `upsertItemFromProvider`, in
source order. -/
def remoteFieldsOf (item : RemoteItem) (key id : String) : Obj :=
  [("id", Value.str id),
   ("provider", Value.str (item.provider.getD ItemProviderId.local).toStr),
   ("kind", Value.str item.kind.toStr),
   ("key", Value.str key),
   ("external_ref", Value.str (providerItemRef item)),
   ("target_path", optStrToValue item.sourcePath),
   ("repo", optStrToValue item.repo),
   ("number", optIntToValue item.number),
   ("remote_state", Value.str (item.state.getD "")),
   ("remote_title", Value.str item.title),
   ("remote_author", Value.str (item.author.getD "")),
   ("remote_url", Value.str (item.url.getD "")),
   ("remote_updated_at", Value.str item.updatedAt),
   ("last_seen_remote_updated_at", Value.str item.updatedAt)]

/-- `upsertItemFromProvider` from `ops-data.ts`: first ensure creates the
sidecar with the remote fields plus defaulted local fields; later ensures
update the existing document with the remote fields only. -/
def upsertItemFromProvider (sha1hex : String → String) (store : Store) (item : RemoteItem) :
    Except String (Store × String) :=
  match resolveItemKey item with
  | Except.error e => Except.error e
  | Except.ok key =>
      let path := itemPath sha1hex item.kind key
      let id := makeItemId item key
      let remoteFields := remoteFieldsOf item key id
      match Store.read store path with
      | none =>
          (match (Store.create store "item_state" path
              (remoteFields ++
                [("local_status", Value.str "new"), ("sync_state", Value.str "clean")])
              "").mapError
              (fun e => "Failed to create sidecar " ++ path ++ ": " ++ e) with
           | Except.error e => Except.error e
           | Except.ok s' => Except.ok (s', path))
      | some _ =>
          (match (Store.update store path remoteFields).mapError
              (fun e => "Failed to update sidecar " ++ path ++ ": " ++ e) with
           | Except.error e => Except.error e
           | Except.ok s' => Except.ok (s', path))

/-- `updateItemFields` from `ops-data.ts` (the explicit field-set path). -/
def updateItemFields (sha1hex : String → String) (store : Store) (kind : ItemKind)
    (key : String) (fields : Obj) : Except String Store :=
  (Store.update store (itemPath sha1hex kind key) fields).mapError
    (fun e => "Failed to update " ++ itemPath sha1hex kind key ++ ": " ++ e)

/-! ## Context builder (`context-builder.ts`) -/

/-- What `readItem` returns for a sidecar document. -/
structure SidecarDoc where
  path : String
  frontmatter : Obj
  body : String
deriving Repr

/-- The entry list of the provider-derived fields of `buildContext`, in
source order (the source spells out this object literal twice, once for
`Object.assign(context, ...)` and once for `providerContext`, with
identical entries). -/
def providerEntries (item : RemoteItem) (provider fencedBody itemRef : String)
    (labels assignees : List String) : Obj :=
  [("provider", Value.str provider),
   ("kind", Value.str item.kind.toStr),
   ("number", optIntToValue item.number),
   ("key", optStrToValue item.key),
   ("repo", optStrToValue item.repo),
   ("title", Value.str item.title),
   ("body", Value.str fencedBody),
   ("body_raw", Value.str item.body),
   ("author", optStrToValue item.author),
   ("state", optStrToValue item.state),
   ("url", optStrToValue item.url),
   ("source_path", optStrToValue item.sourcePath),
   ("labels", Value.arr (labels.map Value.str)),
   ("labels_csv", Value.str (String.intercalate "," labels)),
   ("assignees", Value.arr (assignees.map Value.str)),
   ("assignees_csv", Value.str (String.intercalate "," assignees)),
   ("item_ref", Value.str itemRef),
   ("head_ref", optStrToValue item.headRefName),
   ("base_ref", optStrToValue item.baseRefName)]

/-- The sidecar frontmatter copy loop of `buildContext`: a field is copied
only when its key is not already present in the context. -/
def sidecarCopyLoop (fm : Obj) (ctx : Obj) : Obj :=
  fm.foldl (fun o kv => if Obj.hasKey o kv.1 then o else Obj.set o kv.1 kv.2) ctx

/-- The explicit-variables loop of `buildContext`: every entry is assigned
unconditionally. -/
def applyExplicitVars (evs : List (String × Value)) (ctx : Obj) : Obj :=
  evs.foldl (fun o kv => Obj.set o kv.1 kv.2) ctx

/-- The trailing `item_ref` synthesis of `buildContext`: runs only when
`context.item_ref` is JS-falsy, and derives a reference from
repo+number, else `source_path`, else `key`. -/
def fixItemRef (ctx : Obj) : Obj :=
  if truthy (Obj.getV ctx "item_ref") then ctx
  else
    let step3 :=
      match Obj.getV ctx "key" with
      | Value.str k => Obj.set ctx "item_ref" (Value.str k)
      | _ => ctx
    let step2 :=
      match Obj.getV ctx "source_path" with
      | Value.str sp => Obj.set ctx "item_ref" (Value.str sp)
      | _ => step3
    let mkRef := fun (r numStr : String) =>
      let kind :=
        match Obj.getV ctx "kind" with
        | Value.str s => s
        | _ => "issue"
      Obj.set ctx "item_ref"
        (Value.str (if kind = "pr" then r ++ "#PR" ++ numStr else r ++ "#" ++ numStr))
    match Obj.getV ctx "repo", Obj.getV ctx "number" with
    | Value.str r, Value.int n => mkRef r (toString n)
    | Value.str r, Value.float lit => mkRef r lit
    | _, _ => step2

/-- The part of `buildContext` before the explicit-variables loop: the
invocation-invariant seed, the provider-derived fields with the
namespaced/`item`/`github` aliases, and the sidecar block. -/
def buildContextPre (repoRoot : String) (item? : Option RemoteItem)
    (sidecar? : Option SidecarDoc) : Obj :=
  let ctx : Obj :=
    [("repo_root", Value.str repoRoot), ("ops_root", Value.str (repoRoot ++ "/.ops"))]
  let ctx :=
    match item? with
    | none => ctx
    | some item =>
        let labels := item.labels.map (fun x => x.name)
        let assignees := item.assignees.map (fun x => x.login)
        let provider := (item.provider.getD ItemProviderId.local).toStr
        let itemRef := providerItemRef item
        let fencedBody :=
          if item.body ≠ "" then
            "<" ++ provider ++ "-" ++ item.kind.toStr ++ "-body>\n" ++ item.body ++
              "\n</" ++ provider ++ "-" ++ item.kind.toStr ++ "-body>"
          else ""
        let entries := providerEntries item provider fencedBody itemRef labels assignees
        let ctx := entries.foldl (fun o kv => Obj.set o kv.1 kv.2) ctx
        let providerContext := Value.obj entries
        let ctx := Obj.set ctx provider providerContext
        let ctx := Obj.set ctx "item" providerContext
        if provider = "github" then Obj.set ctx "github" providerContext else ctx
  match sidecar? with
  | none => ctx
  | some sc =>
      let ctx := Obj.set ctx "sidecar" (Value.obj sc.frontmatter)
      let ctx := Obj.set ctx "sidecar_path" (Value.str sc.path)
      let ctx := Obj.set ctx "ops_item_path" (Value.str sc.path)
      let ctx := Obj.set ctx "ops_item_abs_path" (Value.str (repoRoot ++ "/.ops/" ++ sc.path))
      let ctx := Obj.set ctx "sidecar_body" (Value.str sc.body)
      sidecarCopyLoop sc.frontmatter ctx

/-- `buildContext` from `context-builder.ts` (the context field of its
result).  The provider fetch, sidecar upsert and sidecar read are I/O
against external collaborators and enter as the inputs `item?` (the
fetched item, present when a target was given) and `sidecar?` (the
`tryReadSidecar` result); `nowIso` models `new Date().toISOString()`.
After the pre-context, the explicit variables are applied, then the
`item_ref` synthesis, then the `now_iso` stamp. -/
def buildContext (repoRoot : String) (item? : Option RemoteItem) (sidecar? : Option SidecarDoc)
    (explicitVars : List (String × Value)) (nowIso : String) : Obj :=
  Obj.set
    (fixItemRef (applyExplicitVars explicitVars (buildContextPre repoRoot item? sidecar?)))
    "now_iso" (Value.str nowIso)

/-! ## Run executor (`executor.ts`) -/

/-- `AgentCli` from `types.ts`. -/
inductive AgentCli where
  | claude : AgentCli
  | codex : AgentCli
deriving Repr, DecidableEq

/-- `RunMode` from `types.ts` (`"interactive" | "non-interactive"`). -/
inductive RunMode where
  | interactive : RunMode
  | nonInteractive : RunMode
deriving Repr, DecidableEq

/-- The frontmatter of a `CommandRecord` from `types.ts`. -/
structure CommandFrontmatter where
  id : String
  name : String
  scope : String
  description : Option String
  placeholders : Option (List String)
  cli_type : Option AgentCli
  active : Option Bool
  default_mode : Option RunMode
  model : Option String
  permission_mode : Option String
  allowed_tools : Option (List String)
  sandbox_mode : Option String
  approval_policy : Option String
deriving Repr

/-- `CommandRecord` from `types.ts`. -/
structure CommandRecord where
  path : String
  body : String
  frontmatter : CommandFrontmatter
deriving Repr

/-- `AgentRunInput` from `types.ts`. -/
structure AgentRunInput where
  cli : AgentCli
  mode : RunMode
  prompt : String
  cwd : String
  model : Option String
  permissionMode : Option String
  allowedTools : Option (List String)
  sandboxMode : Option String
  approvalPolicy : Option String
deriving Repr

/-- `AgentRunResult` from `types.ts`. -/
structure AgentRunResult where
  exitCode : Int
  stdout : String
  stderr : String
deriving Repr, DecidableEq

/-- `PreparedRun` from `executor.ts` (the fields the pure tail produces). -/
structure PreparedRun where
  command : CommandRecord
  context : Obj
  renderedPrompt : String
  missingRequired : List String
deriving Repr

/-- The pure tail of `prepareRun`: the command lookup (`getCommandById`)
and `buildContext`'s I/O are external, so the command record and the
built context enter as inputs; the body is rendered against the context. -/
def prepareRun (command : CommandRecord) (built : Obj) : PreparedRun :=
  let rendered := renderTemplate command.body built
  { command := command, context := built,
    renderedPrompt := rendered.text, missingRequired := rendered.missingRequired }

/-- The `defaults` record of `executeRun`. -/
structure ExecDefaults where
  mode : Option RunMode
  cli : Option AgentCli
  model : Option String
  permissionMode : Option String
  allowedTools : Option (List String)
  sandboxMode : Option String
  approvalPolicy : Option String
deriving Repr

/-- The result record of `executeRun`. -/
structure ExecutedRun where
  exitCode : Int
  stdout : String
  stderr : String
  prompt : String
  mode : RunMode
deriving Repr

/-- The `mode` resolution of `executeRun`
(`input.mode ?? fm.default_mode ?? defaults.mode ?? "interactive"`). -/
def resolveMode (command : CommandRecord) (inMode : Option RunMode)
    (defaults? : Option ExecDefaults) : RunMode :=
  ((inMode.orElse (fun _ => command.frontmatter.default_mode)).orElse
    (fun _ => (defaults?.getD ⟨none, none, none, none, none, none, none⟩).mode)).getD
    RunMode.interactive

/-- The `AgentRunInput` record `executeRun` hands to `runAgent`, with every
parameter resolved by precedence (call-site override → template
frontmatter → caller defaults → hardwired fallback). -/
def resolveAgentInput (command : CommandRecord) (prompt : String) (repoRoot : String)
    (inMode : Option RunMode) (inCli : Option AgentCli) (inModel : Option String)
    (inPermissionMode : Option String) (inAllowedTools : Option (List String))
    (inSandboxMode : Option String) (inApprovalPolicy : Option String)
    (defaults? : Option ExecDefaults) : AgentRunInput :=
  let fm := command.frontmatter
  let defaults := defaults?.getD ⟨none, none, none, none, none, none, none⟩
  { cli := ((inCli.orElse (fun _ => fm.cli_type)).orElse
      (fun _ => defaults.cli)).getD AgentCli.claude,
    mode := resolveMode command inMode defaults?,
    prompt := prompt, cwd := repoRoot,
    model := (inModel.orElse (fun _ => fm.model)).orElse (fun _ => defaults.model),
    permissionMode := (inPermissionMode.orElse (fun _ => fm.permission_mode)).orElse
      (fun _ => defaults.permissionMode),
    allowedTools := (inAllowedTools.orElse (fun _ => fm.allowed_tools)).orElse
      (fun _ => defaults.allowedTools),
    sandboxMode := (inSandboxMode.orElse (fun _ => fm.sandbox_mode)).orElse
      (fun _ => defaults.sandboxMode),
    approvalPolicy := (inApprovalPolicy.orElse (fun _ => fm.approval_policy)).orElse
      (fun _ => defaults.approvalPolicy) }

/-- The `Missing template variables` message of `executeRun`. -/
def missingVariablesMessage (missing : List String) : String :=
  "Missing template variables: " ++ String.intercalate ", " missing ++
    ". Provide with --var or select an --issue/--pr/--task context."

/-- `executeRun` from `executor.ts`: prepare, fail fast on missing
variables (the thrown `Error` message becomes `Except.error`), otherwise
resolve the execution parameters by precedence and hand the rendered
prompt to `runAgent` (the external agent-invocation primitive, a
parameter here). -/
def executeRun (runAgent : AgentRunInput → AgentRunResult) (command : CommandRecord)
    (built : Obj) (repoRoot : String) (inMode : Option RunMode) (inCli : Option AgentCli)
    (inModel : Option String) (inPermissionMode : Option String)
    (inAllowedTools : Option (List String)) (inSandboxMode : Option String)
    (inApprovalPolicy : Option String) (defaults? : Option ExecDefaults) :
    Except String ExecutedRun :=
  let prepared := prepareRun command built
  if prepared.missingRequired.length > 0 then
    Except.error (missingVariablesMessage prepared.missingRequired)
  else
    let result := runAgent (resolveAgentInput command prepared.renderedPrompt repoRoot
      inMode inCli inModel inPermissionMode inAllowedTools inSandboxMode inApprovalPolicy
      defaults?)
    Except.ok { exitCode := result.exitCode, stdout := result.stdout, stderr := result.stderr,
                prompt := prepared.renderedPrompt,
                mode := resolveMode command inMode defaults? }

/-! ## Concrete fixtures used by the claim theorems and witnesses -/

/-- A GitHub issue fixture. -/
def ghIssue42 : RemoteItem :=
  { provider := some ItemProviderId.github, kind := ItemKind.issue, key := some "42",
    repo := some "acme/app", number := some 42, title := "Fix crash", body := "Crash on start",
    author := some "alice", state := some "open",
    url := some "https://github.com/acme/app/issues/42",
    labels := [⟨"bug"⟩], assignees := [⟨"bob"⟩], updatedAt := "2026-01-01T00:00:00Z",
    headRefName := none, baseRefName := none, sourcePath := none }

/-- A sidecar document fixture. -/
def sampleSidecar : SidecarDoc :=
  ⟨"items/issue-42.md",
   [("local_status", Value.str "new"), ("priority", Value.str "high"),
    ("title", Value.str "sidecar title")], ""⟩

/-- A Jira issue fixture. -/
def jiraIssueProj5 : RemoteItem :=
  { provider := some ItemProviderId.jira, kind := ItemKind.issue, key := none,
    repo := some "PROJ", number := some 5, title := "Jira title", body := "",
    author := some "", state := some "Open", url := some "https://jira/browse/PROJ-5",
    labels := [], assignees := [], updatedAt := "2026-01-01T00:00:00Z",
    headRefName := none, baseRefName := none, sourcePath := none }

/-- An Azure pull-request response fixture whose description carries HTML. -/
def azurePrHtml : AzurePullRequestResponse :=
  { pullRequestId := 9, title := "PR title", description := some "<b>alert</b>",
    status := some "active", sourceRefName := some "refs/heads/feat",
    targetRefName := some "refs/heads/main", creationDate := some "2026-01-01",
    closedDate := none, createdBy := none, reviewers := none, linksWebHref := none }

/-- A command whose body requires the `name` variable. -/
def c4Command : CommandRecord :=
  { path := "commands/hello.md", body := "Hello \x7b\x7bname\x7d\x7d",
    frontmatter :=
      { id := "hello", name := "hello", scope := "general", description := none,
        placeholders := none, cli_type := none, active := none, default_mode := none,
        model := none, permission_mode := none, allowed_tools := none, sandbox_mode := none,
        approval_policy := none } }

/-- The fields the C5 claim lists as replaced on every subsequent ensure. -/
def c5ClaimReplacedFields : List String :=
  ["remote_state", "remote_title", "remote_author", "remote_url", "remote_updated_at",
   "last_seen_remote_updated_at", "id", "provider", "kind", "key", "repo", "number",
   "external_ref"]

/-- The local sidecar fields (spec §3). -/
def sidecarLocalFields : List String :=
  ["local_status", "priority", "difficulty", "risk", "owner", "tags", "summary", "notes",
   "command_id", "sync_state", "last_analyzed_at"]

/-- A hash stand-in (never consulted for the numeric keys used here). -/
def c5Sha : String → String := fun _ => ""

/-- GitHub issue 123 as first fetched. -/
def c5GhA : RemoteItem :=
  { provider := some ItemProviderId.github, kind := ItemKind.issue, key := some "123",
    repo := some "acme/app", number := some 123, title := "Original title", body := "b",
    author := some "alice", state := some "open", url := some "https://x/123",
    labels := [], assignees := [], updatedAt := "2026-01-01T00:00:00Z",
    headRefName := none, baseRefName := none, sourcePath := none }

/-- GitHub issue 123 as fetched again later, with a fresh title. -/
def c5GhB : RemoteItem := { c5GhA with title := "Fresh title" }

/-- The store after the first ensure of issue 123. -/
def c5S1 : Store :=
  match upsertItemFromProvider c5Sha [] c5GhA with
  | Except.ok (s, _) => s
  | Except.error _ => []

/-- The store after a field-set of `local_status` to `in_progress`. -/
def c5S2 : Store :=
  match updateItemFields c5Sha c5S1 ItemKind.issue "123"
      [("local_status", Value.str "in_progress")] with
  | Except.ok s => s
  | Except.error _ => []

/-- The store after the subsequent ensure with the fresh fetch. -/
def c5S3 : Store :=
  match upsertItemFromProvider c5Sha c5S2 c5GhB with
  | Except.ok (s, _) => s
  | Except.error _ => []

/-- Local task 7, first fetched while its file is `tasks/a.md`. -/
def c5TaskA : RemoteItem :=
  { provider := some ItemProviderId.local, kind := ItemKind.task, key := some "7",
    repo := none, number := none, title := "Task seven", body := "",
    author := some "", state := some "open", url := some "tasks/a.md",
    labels := [], assignees := [], updatedAt := "2026-01-01T00:00:00Z",
    headRefName := none, baseRefName := none, sourcePath := some "tasks/a.md" }

/-- The same task fetched again after its file moved to `tasks/b.md`. -/
def c5TaskB : RemoteItem := { c5TaskA with sourcePath := some "tasks/b.md", url := some "tasks/b.md" }

/-- The store after the first ensure of task 7. -/
def c5T1 : Store :=
  match upsertItemFromProvider c5Sha [] c5TaskA with
  | Except.ok (s, _) => s
  | Except.error _ => []

/-- The store after the subsequent ensure of the moved task. -/
def c5T2 : Store :=
  match upsertItemFromProvider c5Sha c5T1 c5TaskB with
  | Except.ok (s, _) => s
  | Except.error _ => []

/-! ## Executable cross-checks of the embedded operations -/

example : Obj.set [("a", Value.int 1), ("b", Value.int 2)] "a" (Value.int 3)
    = [("a", Value.int 3), ("b", Value.int 2)] := rfl

example : trimS "  a b\t" = "a b" := by decide

example : renderTemplate "Hello \x7b\x7bname\x7d\x7d" []
    = ⟨"Hello ", ["name"], ["name"]⟩ := by decide

example : renderTemplate "\x7b\x7bname|anon\x7d\x7d" [] = ⟨"anon", [], ["name"]⟩ := by decide

example : renderTemplate "\x7b\x7b name \x7d\x7d" [("name", Value.str "x")]
    = ⟨"x", [], ["name"]⟩ := by decide

example : renderTemplate "\x7b\x7b name | anon \x7d\x7d" []
    = ⟨"\x7b\x7b name | anon \x7d\x7d", [], []⟩ := by decide

example : renderTemplate "\x7b\x7bgithub.title\x7d\x7d"
    [("github", Value.obj [("title", Value.str "Fix bug")])]
    = ⟨"Fix bug", [], ["github.title"]⟩ := by decide

example : renderTemplate "\x7b\x7bn\x7d\x7d \x7b\x7bb\x7d\x7d"
    [("n", Value.int 0), ("b", Value.bool false)] = ⟨"0 false", [], ["n", "b"]⟩ := by decide

example : renderTemplate "\x7b\x7bname| anon \x7d\x7d" [] = ⟨"anon", [], ["name"]⟩ := by decide

example : renderTemplate "\x7b\x7b name |anon\x7d\x7d" []
    = ⟨"\x7b\x7b name |anon\x7d\x7d", [], []⟩ := by decide

example : renderTemplate "\x7b\x7ba|x\x7dy\x7d\x7d" []
    = ⟨"\x7b\x7ba|x\x7dy\x7d\x7d", [], []⟩ := by decide

example : renderTemplate "\x7b\x7b\x7ba\x7d\x7d" [] = ⟨"\x7b", ["a"], ["a"]⟩ := by decide

example : renderTemplate "\x7b\x7ba|\x7d\x7d" [] = ⟨"", [], ["a"]⟩ := by decide

example : renderTemplate "\x7b\x7ba|b\x7d\x7dc\x7d\x7d" [] = ⟨"bc\x7d\x7d", [], ["a"]⟩ := by decide

example : renderTemplate "\x7b\x7bkey \t\n\x7d\x7d" [] = ⟨"", ["key"], ["key"]⟩ := by decide

example : ∀ jp, parseKeyValuePairs jp ["n=42"] true = Except.ok [("n", Value.int 42)] :=
  fun _ => rfl

example : ∀ jp, parseKeyValuePairs jp ["n=42"] false = Except.ok [("n", Value.str "42")] :=
  fun _ => rfl

example : ∀ jp, parseKeyValuePairs jp ["expr=a=b"] true
    = Except.ok [("expr", Value.str "a=b")] := fun _ => rfl

example : ∀ jp, parseKeyValuePairs jp ["novalue"] true
    = Except.error "Invalid key=value pair: novalue" := fun _ => rfl

example : ∀ jp, parseKeyValuePairs jp [" =x"] true
    = Except.error "Invalid key in pair:  =x" := fun _ => rfl

example : ∀ h, itemPath h ItemKind.issue "123" = "items/issue-123.md" := fun _ => rfl

example : itemPath (fun _ => "0123456789abcdef") ItemKind.task "Fix the Big Bug!"
    = "items/task-fix-the-big-bug-01234567.md" := by decide

example : acquireLock (fun p => p = 7) none none none = Except.ok () := rfl

example : acquireLock (fun p => p = 7) (some "7") (some "7") none
    = Except.error (LockError.lockHeld 7) := rfl

example : acquireLock (fun p => p = 7) (some "9") (some "9") none = Except.ok () := rfl

example : acquireLock (fun p => p = 7) (some "garbage") (some "garbage") none
    = Except.ok () := rfl

example : acquireLock (fun p => p = 7) (some "9") (some "9") (some "8")
    = Except.error LockError.acquisitionFailed := rfl

example : stripHtml "<p>Hello&nbsp;<b>world</b></p>" = "Hello world" := by decide

example : stripHtml " a<br/>b<BR >c " = "a\nb\nc" := by decide

example : stripHtml "x &lt;3&gt; &amp; y" = "x <3> & y" := by decide

example : stripHtml "<b>alert</b>" = "alert" := by decide

example : stripHtml "a << b" = "a << b" := by decide

example : stripHtml "&amp;nbsp;" = "&nbsp;" := by decide

example : stripHtml "<<a>>" = ">" := by decide

example : stripHtml "<br/ >x" = "x" := by decide

example : stripHtml "<P>p</P>" = "p" := by decide

/-! ## General lemmas about the embedded operations -/

theorem Obj.set_getV_self (o : Obj) (k : String) (v : Value) :
    (Obj.set o k v).getV k = v := by
  induction o with
  | nil => simp [Obj.set, Obj.getV]
  | cons hd tl ih =>
      obtain ⟨k1, v1⟩ := hd
      by_cases h : k1 = k
      · simp [Obj.set, h, Obj.getV]
      · simp [Obj.set, h, Obj.getV, ih]

theorem Obj.set_getV_ne (o : Obj) (k : String) (v : Value) (k' : String) (h : k' ≠ k) :
    (Obj.set o k v).getV k' = o.getV k' := by
  have h2 : ¬ (k = k') := fun e => h (Eq.symm e)
  induction o with
  | nil => simp [Obj.set, Obj.getV, h2]
  | cons hd tl ih =>
      obtain ⟨k1, v1⟩ := hd
      by_cases h1 : k1 = k
      · subst h1
        simp [Obj.set, Obj.getV, h2]
      · simp [Obj.set, h1, Obj.getV, ih]

theorem Obj.hasKey_set_iff (o : Obj) (k : String) (v : Value) (k' : String) :
    Obj.hasKey (Obj.set o k v) k' = true ↔ (k = k' ∨ Obj.hasKey o k' = true) := by
  induction o with
  | nil => simp [Obj.set, Obj.hasKey]
  | cons hd tl ih =>
      obtain ⟨k1, v1⟩ := hd
      by_cases h1 : k1 = k
      · subst h1
        simp [Obj.set, Obj.hasKey]
      · simp [Obj.set, h1, Obj.hasKey, ih]
        tauto

theorem foldl_set_getV (fields : List (String × Value)) (o : Obj) (k : String) :
    (fields.foldl (fun acc kv => Obj.set acc kv.1 kv.2) o).getV k
      = (lookupLast fields k).getD (o.getV k) := by
  induction fields generalizing o with
  | nil => rfl
  | cons hd tl ih =>
      obtain ⟨k1, v1⟩ := hd
      simp only [List.foldl_cons, lookupLast]
      rw [ih]
      cases h : lookupLast tl k with
      | some v => simp
      | none =>
          by_cases hk : k1 = k
          · subst hk
            simp [Obj.set_getV_self]
          · simp [hk, Obj.set_getV_ne _ _ _ _ (fun e => hk (Eq.symm e))]

theorem copyLoop_present (fm : List (String × Value)) (ctx : Obj) (k : String)
    (h : Obj.hasKey ctx k = true) :
    ((fm.foldl (fun o kv => if Obj.hasKey o kv.1 then o else Obj.set o kv.1 kv.2) ctx).getV k
       = ctx.getV k)
    ∧ Obj.hasKey
        (fm.foldl (fun o kv => if Obj.hasKey o kv.1 then o else Obj.set o kv.1 kv.2) ctx) k
        = true := by
  induction fm generalizing ctx with
  | nil => exact ⟨rfl, h⟩
  | cons hd tl ih =>
      obtain ⟨k1, v1⟩ := hd
      simp only [List.foldl_cons]
      by_cases h1 : Obj.hasKey ctx k1 = true
      · simp only [h1, if_true]
        exact ih ctx h
      · have h1' : Obj.hasKey ctx k1 = false := by
          revert h1
          cases Obj.hasKey ctx k1 <;> simp
        have hk1 : k1 ≠ k := by
          intro e
          rw [e, h] at h1'
          cases h1'
        have hket : Obj.hasKey (Obj.set ctx k1 v1) k = true :=
          (Obj.hasKey_set_iff ctx k1 v1 k).mpr (Or.inr h)
        obtain ⟨ha, hb⟩ := ih (Obj.set ctx k1 v1) hket
        refine ⟨?_, ?_⟩
        · simp only [h1', Bool.false_eq_true, if_false]
          rw [ha, Obj.set_getV_ne _ _ _ _ (fun e => hk1 (Eq.symm e))]
        · simp only [h1', Bool.false_eq_true, if_false]
          exact hb

theorem copyLoop_absent (fm : List (String × Value)) (ctx : Obj) (k : String)
    (h : Obj.hasKey ctx k = false) :
    (fm.foldl (fun o kv => if Obj.hasKey o kv.1 then o else Obj.set o kv.1 kv.2) ctx).getV k
      = (lookupFirst fm k).getD (ctx.getV k) := by
  induction fm generalizing ctx with
  | nil => rfl
  | cons hd tl ih =>
      obtain ⟨k1, v1⟩ := hd
      simp only [List.foldl_cons]
      by_cases hk1 : k1 = k
      · subst hk1
        have hket : Obj.hasKey (Obj.set ctx k1 v1) k1 = true :=
          (Obj.hasKey_set_iff ctx k1 v1 k1).mpr (Or.inl rfl)
        simp only [h, Bool.false_eq_true, if_false]
        rw [(copyLoop_present tl (Obj.set ctx k1 v1) k1 hket).1, Obj.set_getV_self]
        simp [lookupFirst]
      · by_cases h1 : Obj.hasKey ctx k1 = true
        · simp only [h1, if_true]
          rw [ih ctx h]
          simp [lookupFirst, hk1]
        · have h1' : Obj.hasKey ctx k1 = false := by
            revert h1
            cases Obj.hasKey ctx k1 <;> simp
          have hkf : Obj.hasKey (Obj.set ctx k1 v1) k = false := by
            cases b : Obj.hasKey (Obj.set ctx k1 v1) k with
            | false => rfl
            | true =>
                rcases (Obj.hasKey_set_iff ctx k1 v1 k).mp b with e | e
                · exact absurd e hk1
                · rw [e] at h
                  cases h
          simp only [h1', Bool.false_eq_true, if_false]
          rw [ih (Obj.set ctx k1 v1) hkf, Obj.set_getV_ne _ _ _ _ (fun e => hk1 (Eq.symm e))]
          simp [lookupFirst, hk1]

theorem fixItemRef_truthy (ctx : Obj) (h : truthy (Obj.getV ctx "item_ref") = true) :
    fixItemRef ctx = ctx := by
  unfold fixItemRef
  rw [if_pos h]

theorem fixItemRef_getV_ne (ctx : Obj) (k : String) (h : k ≠ "item_ref") :
    (fixItemRef ctx).getV k = ctx.getV k := by
  unfold fixItemRef
  split
  · rfl
  · dsimp only
    split
    · exact Obj.set_getV_ne _ _ _ _ h
    · exact Obj.set_getV_ne _ _ _ _ h
    · split
      · exact Obj.set_getV_ne _ _ _ _ h
      · split
        · exact Obj.set_getV_ne _ _ _ _ h
        · rfl

theorem dropWhile_append_all {α : Type} (p : α → Bool) (l1 l2 : List α)
    (h : ∀ c ∈ l1, p c = true) : (l1 ++ l2).dropWhile p = l2.dropWhile p := by
  induction l1 with
  | nil => rfl
  | cons a l ih =>
      simp only [List.cons_append, List.dropWhile_cons, h a (List.mem_cons_self a l), if_true]
      exact ih (fun c hc => h c (List.mem_cons_of_mem a hc))

theorem dropWhile_head_false {α : Type} (p : α → Bool) (l : List α)
    (h : ∀ c, l.head? = some c → p c = false) : l.dropWhile p = l := by
  cases l with
  | nil => rfl
  | cons a l => simp [List.dropWhile_cons, h a rfl]

theorem takeWhile_append_all {α : Type} (p : α → Bool) (l1 l2 : List α)
    (h1 : ∀ c ∈ l1, p c = true) (h2 : ∀ c, l2.head? = some c → p c = false) :
    (l1 ++ l2).takeWhile p = l1 := by
  induction l1 with
  | nil =>
      cases l2 with
      | nil => rfl
      | cons a l => simp [List.takeWhile_cons, h2 a rfl]
  | cons a l ih =>
      simp only [List.cons_append, List.takeWhile_cons, h1 a (List.mem_cons_self a l), if_true]
      rw [ih (fun c hc => h1 c (List.mem_cons_of_mem a hc))]

theorem dropWhile_append_end {α : Type} (p : α → Bool) (l1 l2 : List α)
    (h1 : ∀ c ∈ l1, p c = true) (h2 : ∀ c, l2.head? = some c → p c = false) :
    (l1 ++ l2).dropWhile p = l2 :=
  (dropWhile_append_all p l1 l2 h1).trans (dropWhile_head_false p l2 h2)

theorem dropWhile_append_left {α : Type} (p : α → Bool) (l1 l2 : List α)
    (h : l1.dropWhile p ≠ []) : (l1 ++ l2).dropWhile p = l1.dropWhile p ++ l2 := by
  induction l1 with
  | nil => exact absurd rfl h
  | cons a l ih =>
      by_cases hp : p a = true
      · simp only [List.cons_append, List.dropWhile_cons, hp, if_true]
        simp only [List.dropWhile_cons, hp, if_true] at h
        exact ih h
      · have hp' : p a = false := by revert hp; cases p a <;> simp
        simp [List.dropWhile_cons, hp']

theorem keyChar_not_space (c : Char) (h : isKeyChar c = true) : isJsSpace c = false := by
  simp only [isKeyChar, Bool.or_eq_true, Bool.and_eq_true, decide_eq_true_eq] at h
  simp only [isJsSpace, Bool.or_eq_false_iff, decide_eq_false_iff_not]
  omega

theorem space_not_keyChar (c : Char) (h : isJsSpace c = true) : isKeyChar c = false := by
  simp only [isJsSpace, Bool.or_eq_true, decide_eq_true_eq] at h
  simp only [isKeyChar, Bool.or_eq_false_iff, Bool.and_eq_false_iff,
    decide_eq_false_iff_not]
  omega

theorem space_ne_pipe (c : Char) (h : isJsSpace c = true) : c ≠ '|' := by
  intro e
  rw [e] at h
  exact absurd h (by decide)

theorem space_ne_rbrace (c : Char) (h : isJsSpace c = true) : c ≠ '}' := by
  intro e
  rw [e] at h
  exact absurd h (by decide)

theorem dropWhile_all_false {α : Type} (p : α → Bool) (l : List α)
    (h : ∀ c ∈ l, p c = false) : l.dropWhile p = l := by
  cases l with
  | nil => rfl
  | cons a l => simp [List.dropWhile_cons, h a (List.mem_cons_self a l)]

theorem trimList_all_keep (l : List Char) (h : ∀ c ∈ l, isJsSpace c = false) :
    trimList l = l := by
  unfold trimList
  rw [dropWhile_all_false _ l h,
      dropWhile_all_false _ l.reverse (fun c hc => h c (List.mem_reverse.mp hc)),
      List.reverse_reverse]

theorem trimList_pad (ws1 fb ws2 : List Char)
    (h1 : ∀ c ∈ ws1, isJsSpace c = true) (h2 : ∀ c ∈ ws2, isJsSpace c = true) :
    trimList (ws1 ++ fb ++ ws2) = trimList fb := by
  unfold trimList
  rw [List.append_assoc, dropWhile_append_all _ ws1 _ h1]
  by_cases hfb : fb.dropWhile isJsSpace = []
  · have hfb' : ∀ c ∈ fb, isJsSpace c = true := by
      rw [List.dropWhile_eq_nil_iff] at hfb
      exact hfb
    have hws2 : ws2.dropWhile isJsSpace = [] := by
      rw [List.dropWhile_eq_nil_iff]
      exact h2
    rw [dropWhile_append_all _ fb _ hfb', hfb, hws2]
  · rw [dropWhile_append_left _ fb ws2 hfb, List.reverse_append,
        dropWhile_append_all _ ws2.reverse _ (fun c hc => h2 c (List.mem_reverse.mp hc))]

theorem head_cons_prop {α : Type} (a : α) (l : List α) (p : α → Bool) (hp : p a = false) :
    ∀ c, ((a :: l).head? = some c) → p c = false := by
  intro c hc
  injection hc with hc
  rw [← hc]
  exact hp

theorem parseClose_spec (key ws2 rest : List Char) (h : ∀ c ∈ ws2, isJsSpace c = true) :
    parseTail key (ws2 ++ '}' :: '}' :: rest) = some (key, none, rest) := by
  cases ws2 with
  | nil => rfl
  | cons a l =>
      have ha : isJsSpace a = true := h a (List.mem_cons_self a l)
      have hne : a ≠ '|' := space_ne_pipe a ha
      unfold parseTail
      split
      · rename_i fbStart heq
        injection heq with hh1 hh2
        exact absurd hh1 hne
      · have hdw : (a :: l ++ '}' :: '}' :: rest).dropWhile isJsSpace = '}' :: '}' :: rest := by
          rw [List.cons_append, List.dropWhile_cons]
          simp only [ha, if_true]
          exact dropWhile_append_end _ l _ (fun c hc => h c (List.mem_cons_of_mem a hc))
            (head_cons_prop '}' _ _ (by decide))
        rw [hdw]
        rfl

theorem parseFb_spec (key mid rest : List Char) (h : ∀ c ∈ mid, c ≠ '}') :
    parseTail key ('|' :: (mid ++ '}' :: '}' :: rest)) = some (key, some mid, rest) := by
  show parseFb key (mid ++ '}' :: '}' :: rest) = _
  unfold parseFb
  have hall : ∀ c ∈ mid, (c != '}') = true := by
    intro c hc
    simp [h c hc]
  have hhead : ∀ c, ('}' :: '}' :: rest).head? = some c → (c != '}') = false :=
    head_cons_prop '}' _ _ (by decide)
  rw [dropWhile_append_end _ mid _ hall hhead, takeWhile_append_all _ mid _ hall hhead]
  rfl

theorem parsePH_spec (ws1 key tail : List Char)
    (h1 : ∀ c ∈ ws1, isJsSpace c = true)
    (hk : key ≠ []) (hkc : ∀ c ∈ key, isKeyChar c = true)
    (htail : ∀ c, tail.head? = some c → isKeyChar c = false) :
    parsePH (ws1 ++ (key ++ tail)) = parseTail key tail := by
  unfold parsePH
  have hws : (ws1 ++ (key ++ tail)).dropWhile isJsSpace = key ++ tail := by
    rw [dropWhile_append_all _ ws1 _ h1]
    apply dropWhile_head_false
    intro c hc
    cases key with
    | nil => exact absurd rfl hk
    | cons a l =>
        have : a = c := by
          simp only [List.cons_append, List.head?_cons] at hc
          injection hc
        rw [← this]
        exact keyChar_not_space a (hkc a (List.mem_cons_self a l))
  simp only [hws]
  rw [takeWhile_append_all _ key _ hkc htail, dropWhile_append_end _ key _ hkc htail]
  rw [show key.isEmpty = false from by
    cases key with
    | nil => exact absurd rfl hk
    | cons a l => rfl]
  rfl

theorem trimS_of_keyChars (key : List Char) (h : ∀ c ∈ key, isKeyChar c = true) :
    trimS (String.mk key) = String.mk key := by
  unfold trimS
  rw [show (String.mk key).data = key from rfl,
      trimList_all_keep key (fun c hc => keyChar_not_space c (h c hc))]

theorem getPart_undef_foldl (parts : List String) :
    parts.foldl getPart Value.undef = Value.undef := by
  induction parts with
  | nil => rfl
  | cons p ps ih => simpa [getPart] using ih

theorem splitOnDot_ne_nil (l : List Char) : splitOnDot l ≠ [] := by
  cases l with
  | nil => simp [splitOnDot]
  | cons c rest =>
      rw [splitOnDot.eq_def]
      split
      all_goals try simp
      all_goals
        rename_i hguard heq
        injection heq with e1 e2
        subst e2
        cases hz : splitOnDot rest <;> simp

theorem getByPath_emptyCtx (key : String) : getByPath [] key = Value.undef := by
  unfold getByPath
  cases hsp : splitOnDot key.data with
  | nil => exact absurd hsp (splitOnDot_ne_nil key.data)
  | cons p ps =>
      simp only [List.map_cons, List.foldl_cons]
      rw [show getPart (Value.obj []) (String.mk p) = Value.undef from rfl]
      exact getPart_undef_foldl _

theorem renderTemplate_one (body keyRaw : List Char) (fbRaw : Option (List Char)) (ctx : Obj)
    (h : parsePH body = some (keyRaw, fbRaw, [])) :
    renderTemplate (String.mk ('{' :: '{' :: body)) ctx
      = (let key := trimS (String.mk keyRaw)
         let r := renderCallback ctx key (fbRaw.map (fun l => trimS (String.mk l)))
         { text := String.mk r.1.data, missingRequired := if r.2 then [key] else [],
           placeholdersUsed := [key] }) := by
  unfold renderTemplate
  rw [show (String.mk ('{' :: '{' :: body)).data = '{' :: '{' :: body from rfl]
  rw [show ('{' :: '{' :: body).length = body.length + 1 + 1 from by simp]
  simp only [renderLoop, h]
  simp [addOnce]

/-! ## Claim theorems -/

/-- C1 (amended): in `buildContext`, an explicit `--var` variable overwrites
any existing value of its key and is the highest-precedence source for
every context key except `now_iso` — which is always re-stamped with the
current timestamp after the explicit variables — and `item_ref` when the
explicit value is JS-falsy — which the trailing synthesis then replaces;
a sidecar frontmatter field is copied into the context only when that key
is not already present (so provider-derived fields beat sidecar fields),
and when the key is absent the first frontmatter entry for it is copied. -/
theorem c1_explicit_vars_precedence :
    (∀ (repoRoot : String) (item? : Option RemoteItem) (sidecar? : Option SidecarDoc)
        (explicitVars : List (String × Value)) (nowIso : String) (k : String) (v : Value),
        lookupLast explicitVars k = some v → k ≠ "now_iso" →
        (k = "item_ref" → truthy v = true) →
        Obj.getV (buildContext repoRoot item? sidecar? explicitVars nowIso) k = v)
    ∧ (∀ (fm ctx : Obj) (k : String), Obj.hasKey ctx k = true →
        Obj.getV (sidecarCopyLoop fm ctx) k = Obj.getV ctx k)
    ∧ (∀ (fm ctx : Obj) (k : String), Obj.hasKey ctx k = false →
        Obj.getV (sidecarCopyLoop fm ctx) k = (lookupFirst fm k).getD (Obj.getV ctx k)) := by
  refine ⟨?_, ?_, ?_⟩
  · intro rr item? sc? evs now k v hl hn hi
    unfold buildContext
    rw [Obj.set_getV_ne _ _ _ _ hn]
    have hev : Obj.getV (applyExplicitVars evs (buildContextPre rr item? sc?)) k = v := by
      unfold applyExplicitVars
      rw [foldl_set_getV, hl]
      rfl
    by_cases hk : k = "item_ref"
    · subst hk
      rw [fixItemRef_truthy _ (by rw [hev]; exact hi rfl)]
      exact hev
    · rw [fixItemRef_getV_ne _ _ hk]
      exact hev
  · intro fm ctx k h
    unfold sidecarCopyLoop
    exact (copyLoop_present fm ctx k h).1
  · intro fm ctx k h
    unfold sidecarCopyLoop
    exact copyLoop_absent fm ctx k h

/-- Witness for C1: with an item and a sidecar present, an explicit
`--var title=OVR` wins at key `title`. -/
theorem c1_explicit_vars_precedence_witness :
    Obj.getV (buildContext "/repo" (some ghIssue42) (some sampleSidecar)
      [("title", Value.str "OVR")] "2026-02-02T00:00:00.000Z") "title" = Value.str "OVR" :=
  c1_explicit_vars_precedence.1 "/repo" (some ghIssue42) (some sampleSidecar)
    [("title", Value.str "OVR")] "2026-02-02T00:00:00.000Z" "title" (Value.str "OVR")
    rfl (by decide) (fun h => absurd h (by decide))

/-- Counterexample for C1 as stated: an explicit `--var now_iso=x` does not
survive — `buildContext` stamps `now_iso` after the explicit-variables
loop, so the explicit value is not the highest-precedence source for that
key. -/
theorem c1_counterexample_now_iso :
    Obj.getV (buildContext "/repo" none none [("now_iso", Value.str "x")]
        "2026-01-01T00:00:00.000Z") "now_iso"
      = Value.str "2026-01-01T00:00:00.000Z"
    ∧ ("2026-01-01T00:00:00.000Z" : String) ≠ "x" :=
  ⟨rfl, by decide⟩

/-- C6: when the lock marker already exists, a recorded pid belonging to a
live process makes `acquireLock` fail immediately with the lock-held
error naming that pid (no waiting); a dead recorded process or a marker
that vanished before the read leads to deletion and exactly one retried
exclusive create, which succeeds exactly when no fresh marker is in the
way and otherwise fails fatally with the acquisition-failed error. -/
theorem c6_lock_acquisition :
    (∀ (alive : Int → Bool) (c content : String) (m3 : Option String) (pid : Int),
        parseIntJs (trimS content).data = some pid → alive pid = true →
        acquireLock alive (some c) (some content) m3
          = Except.error (LockError.lockHeld pid))
    ∧ (∀ (alive : Int → Bool) (c content : String) (pid : Int),
        parseIntJs (trimS content).data = some pid → alive pid = false →
        acquireLock alive (some c) (some content) none = Except.ok ())
    ∧ (∀ (alive : Int → Bool) (c content m3' : String) (pid : Int),
        parseIntJs (trimS content).data = some pid → alive pid = false →
        acquireLock alive (some c) (some content) (some m3')
          = Except.error LockError.acquisitionFailed)
    ∧ (∀ (alive : Int → Bool) (c : String),
        acquireLock alive (some c) none none = Except.ok ())
    ∧ (∀ (alive : Int → Bool) (c m3' : String),
        acquireLock alive (some c) none (some m3')
          = Except.error LockError.acquisitionFailed) := by
  refine ⟨?_, ?_, ?_, ?_, ?_⟩
  · intro alive c content m3 pid hp ha
    simp [acquireLock, hp, ha]
  · intro alive c content pid hp ha
    simp [acquireLock, hp, ha]
  · intro alive c content m3' pid hp ha
    simp [acquireLock, hp, ha]
  · intro alive c
    simp [acquireLock]
  · intro alive c m3'
    simp [acquireLock]

/-- Witness for C6: pid 7 recorded and alive yields the lock-held error. -/
theorem c6_lock_acquisition_witness :
    acquireLock (fun p => p = 7) (some "7") (some "7") none
      = Except.error (LockError.lockHeld 7) :=
  c6_lock_acquisition.1 (fun p => p = 7) "7" "7" none 7 rfl (by decide)

/-- C10: a lock marker whose content does not parse as an integer pid is
treated as stale — never as held — so after deletion and one retried
create the acquisition succeeds when no fresh marker interferes. -/
theorem c10_unparsable_pid_is_stale :
    (∀ (alive : Int → Bool) (c content : String),
        parseIntJs (trimS content).data = none →
        acquireLock alive (some c) (some content) none = Except.ok ())
    ∧ (∀ (alive : Int → Bool) (c content : String) (m3 : Option String) (pid : Int),
        parseIntJs (trimS content).data = none →
        acquireLock alive (some c) (some content) m3
          ≠ Except.error (LockError.lockHeld pid))
    ∧ acquireLock (fun _ => true) (some "") (some "") none = Except.ok ()
    ∧ acquireLock (fun _ => true) (some "garbage") (some "garbage") none = Except.ok () := by
  refine ⟨?_, ?_, rfl, rfl⟩
  · intro alive c content hp
    simp [acquireLock, hp]
  · intro alive c content m3 pid hp
    cases m3 <;> simp [acquireLock, hp]

/-- Witness for C10: non-numeric marker content, acquisition succeeds. -/
theorem c10_unparsable_pid_is_stale_witness :
    acquireLock (fun _ => true) (some "nonsense") (some "nonsense") none = Except.ok () :=
  c10_unparsable_pid_is_stale.1 (fun _ => true) "nonsense" "nonsense" rfl

/-- C7 (amended): the canonical reference is `{repo}#{number}` for GitHub,
GitLab and Azure issues, `{repo}#PR{number}` for GitHub and Azure pull
requests, `{repo}!{number}` for GitLab merge requests, and
`{repo}-{number}` (Jira issue-key style) for Jira items of any remote
kind; local items (provider `local` or kind `task`) use the source path,
falling back to the key and then the title. -/
theorem c7_provider_item_ref :
    (∀ (item : RemoteItem) (r : String) (n : Int),
        (item.provider = some ItemProviderId.github ∨ item.provider = none) →
        item.kind = ItemKind.issue → item.repo = some r → item.number = some n →
        providerItemRef item = r ++ "#" ++ toString n)
    ∧ (∀ (item : RemoteItem) (r : String) (n : Int),
        (item.provider = some ItemProviderId.github ∨ item.provider = none) →
        item.kind = ItemKind.pr → item.repo = some r → item.number = some n →
        providerItemRef item = r ++ "#PR" ++ toString n)
    ∧ (∀ (item : RemoteItem) (r : String) (n : Int),
        item.provider = some ItemProviderId.azure →
        item.kind = ItemKind.issue → item.repo = some r → item.number = some n →
        providerItemRef item = r ++ "#" ++ toString n)
    ∧ (∀ (item : RemoteItem) (r : String) (n : Int),
        item.provider = some ItemProviderId.azure →
        item.kind = ItemKind.pr → item.repo = some r → item.number = some n →
        providerItemRef item = r ++ "#PR" ++ toString n)
    ∧ (∀ (item : RemoteItem) (r : String) (n : Int),
        item.provider = some ItemProviderId.gitlab →
        item.kind = ItemKind.issue → item.repo = some r → item.number = some n →
        providerItemRef item = r ++ "#" ++ toString n)
    ∧ (∀ (item : RemoteItem) (r : String) (n : Int),
        item.provider = some ItemProviderId.gitlab →
        item.kind = ItemKind.pr → item.repo = some r → item.number = some n →
        providerItemRef item = r ++ "!" ++ toString n)
    ∧ (∀ (item : RemoteItem) (r : String) (n : Int),
        item.provider = some ItemProviderId.jira →
        item.kind ≠ ItemKind.task → item.repo = some r → item.number = some n →
        providerItemRef item = r ++ "-" ++ toString n)
    ∧ (∀ (item : RemoteItem) (sp : String),
        (item.provider = some ItemProviderId.local ∨ item.kind = ItemKind.task) →
        item.sourcePath = some sp → providerItemRef item = sp)
    ∧ (∀ (item : RemoteItem) (k : String),
        (item.provider = some ItemProviderId.local ∨ item.kind = ItemKind.task) →
        item.sourcePath = none → item.key = some k → providerItemRef item = k)
    ∧ (∀ (item : RemoteItem),
        (item.provider = some ItemProviderId.local ∨ item.kind = ItemKind.task) →
        item.sourcePath = none → item.key = none → providerItemRef item = item.title) := by
  refine ⟨?_, ?_, ?_, ?_, ?_, ?_, ?_, ?_, ?_, ?_⟩
  · intro item r n hp hk hr hn
    rcases hp with hp | hp <;>
      simp [providerItemRef, hp, hk, githubItemRef, jsOptS, jsOptI, hr, hn]
  · intro item r n hp hk hr hn
    rcases hp with hp | hp <;>
      simp [providerItemRef, hp, hk, githubItemRef, jsOptS, jsOptI, hr, hn]
  · intro item r n hp hk hr hn
    simp [providerItemRef, hp, hk, azureItemRef, jsOptS, jsOptI, hr, hn]
  · intro item r n hp hk hr hn
    simp [providerItemRef, hp, hk, azureItemRef, jsOptS, jsOptI, hr, hn]
  · intro item r n hp hk hr hn
    simp [providerItemRef, hp, hk, gitlabItemRef, jsOptS, jsOptI, hr, hn]
  · intro item r n hp hk hr hn
    simp [providerItemRef, hp, hk, gitlabItemRef, jsOptS, jsOptI, hr, hn]
  · intro item r n hp hk hr hn
    simp [providerItemRef, hp, hk, jiraItemRef, jsOptS, jsOptI, hr, hn]
  · intro item sp hl hsp
    rcases hl with hl | hl <;> simp [providerItemRef, hl, hsp, Option.orElse]
  · intro item k hl hsp hk
    rcases hl with hl | hl <;> simp [providerItemRef, hl, hsp, hk, Option.orElse]
  · intro item hl hsp hk
    rcases hl with hl | hl <;> simp [providerItemRef, hl, hsp, hk, Option.orElse]

/-- Witness for C7: a Jira issue formats as `PROJ-5`. -/
theorem c7_provider_item_ref_witness :
    providerItemRef jiraIssueProj5 = "PROJ-5" :=
  (c7_provider_item_ref.2.2.2.2.2.2.1 jiraIssueProj5 "PROJ" 5 rfl (by decide) rfl rfl).trans
    (by decide)

/-- Counterexample for C7 as stated: for a Jira issue the code produces
`{repo}-{number}`, not `{repo}#{number}` as the claim says for issues of
all remote providers. -/
theorem c7_counterexample_jira :
    providerItemRef jiraIssueProj5 = "PROJ-5" ∧ ("PROJ-5" : String) ≠ "PROJ#5" :=
  ⟨rfl, by decide⟩

/-- C8 (amended): Jira's rich-text description is converted to plain text
by the recursive ADF flattening `jiraDescriptionToText` before being
assigned to `body`; Azure work-item descriptions go through the
`stripHtml` tag-stripping pass; Azure pull-request descriptions are
assigned verbatim (`?? ""` only), with no stripping. -/
theorem c8_html_stripping :
    (∀ (scope : AzureScope) (nowIso : String) (w : AzureWorkItemResponse),
        (azureWorkItemToRemoteItem scope nowIso w).body
          = stripHtml (asString (Obj.getV w.fields "System.Description")))
    ∧ (∀ (scope : AzureScope) (repository nowIso : String) (pr : AzurePullRequestResponse),
        (azurePrToRemoteItem scope repository nowIso pr).body = pr.description.getD "")
    ∧ (∀ (base : String) (n : Int) (repo env : Option String) (nowIso : String)
        (issue : JiraIssueResponse),
        (jiraIssueToRemoteItem base n repo env nowIso issue).body
          = jiraDescriptionToText issue.fields.description)
    ∧ stripHtml "<p>Hello&nbsp;<b>world</b></p>" = "Hello world"
    ∧ jiraDescriptionToText (some (JiraNode.mk (some "text") (some "Hi") none)) = "Hi" := by
  refine ⟨fun _ _ _ => rfl, fun _ _ _ _ => rfl, fun _ _ _ _ _ _ => rfl, by decide, ?_⟩
  simp [jiraDescriptionToText]

/-- Counterexample for C8 as stated: an Azure pull-request body keeps its
HTML tags — the description is not passed through the tag-stripping
pass. -/
theorem c8_counterexample_azure_pr :
    (azurePrToRemoteItem ⟨"org", "proj", some "repo"⟩ "repo" "2026-01-01" azurePrHtml).body
        = "<b>alert</b>"
    ∧ stripHtml "<b>alert</b>" = "alert"
    ∧ ("<b>alert</b>" : String) ≠ "alert" :=
  ⟨rfl, by decide, by decide⟩

theorem isAbsentValue_eq_true_iff (v : Value) :
    isAbsentValue v = true ↔ (v = Value.undef ∨ v = Value.null ∨ v = Value.str "") := by
  cases v <;> simp [isAbsentValue]

/-- C2: in `renderTemplate` the value resolved by the dotted-path walk is
treated as absent exactly when it is missing/`undefined`, `null` or the
empty string; an absent value with a fallback substitutes the fallback,
an absent value without a fallback substitutes the empty string and
records the path in `missingRequired`; a present value (such as `0` or
`false`) is rendered via `stringifyValue`.  Concretely, `"Hello {{name}}"`
against the empty context yields text `"Hello "` with `missingRequired`
`["name"]`. -/
theorem c2_absent_value_semantics :
    (∀ (ctx : Obj) (key fb : String),
        (getByPath ctx key = Value.undef ∨ getByPath ctx key = Value.null ∨
          getByPath ctx key = Value.str "") →
        renderCallback ctx key (some fb) = (fb, false))
    ∧ (∀ (ctx : Obj) (key : String),
        (getByPath ctx key = Value.undef ∨ getByPath ctx key = Value.null ∨
          getByPath ctx key = Value.str "") →
        renderCallback ctx key none = ("", true))
    ∧ (∀ (ctx : Obj) (key : String) (fb : Option String),
        ¬(getByPath ctx key = Value.undef ∨ getByPath ctx key = Value.null ∨
          getByPath ctx key = Value.str "") →
        renderCallback ctx key fb = (stringifyValue (getByPath ctx key), false))
    ∧ (∀ (key : List Char) (ctx : Obj),
        key ≠ [] → (∀ c ∈ key, isKeyChar c = true) →
        (getByPath ctx (String.mk key) = Value.undef ∨
          getByPath ctx (String.mk key) = Value.null ∨
          getByPath ctx (String.mk key) = Value.str "") →
        renderTemplate (String.mk ('{' :: '{' :: (key ++ ['}', '}']))) ctx
          = ⟨"", [String.mk key], [String.mk key]⟩)
    ∧ renderTemplate "Hello \x7b\x7bname\x7d\x7d" [] = ⟨"Hello ", ["name"], ["name"]⟩
    ∧ renderTemplate "\x7b\x7bn\x7d\x7d \x7b\x7bb\x7d\x7d"
        [("n", Value.int 0), ("b", Value.bool false)] = ⟨"0 false", [], ["n", "b"]⟩ := by
  refine ⟨?_, ?_, ?_, ?_, by decide, by decide⟩
  · intro ctx key fb h
    simp only [renderCallback, (isAbsentValue_eq_true_iff (getByPath ctx key)).mpr h, if_true]
  · intro ctx key h
    simp only [renderCallback, (isAbsentValue_eq_true_iff (getByPath ctx key)).mpr h, if_true]
  · intro ctx key fb h
    have hf : isAbsentValue (getByPath ctx key) = false := by
      cases hb : isAbsentValue (getByPath ctx key) with
      | false => rfl
      | true => exact absurd ((isAbsentValue_eq_true_iff _).mp hb) h
    simp only [renderCallback, hf, Bool.false_eq_true, if_false]
  · intro key ctx hk hkc habs
    have hph : parsePH (key ++ ['}', '}']) = some (key, none, []) := by
      have hspec := parsePH_spec [] key ['}', '}'] (by simp) hk hkc
        (head_cons_prop '}' _ _ (by decide))
      rw [List.nil_append] at hspec
      rw [hspec]
      exact parseClose_spec key [] []  (by simp)
    rw [renderTemplate_one _ _ _ _ hph]
    dsimp only
    rw [trimS_of_keyChars key hkc]
    simp only [renderCallback,
      (isAbsentValue_eq_true_iff (getByPath ctx (String.mk key))).mpr habs, if_true]
    rfl

/-- Witness for C2: an absent value with a fallback substitutes the
fallback, evaluated at the empty context. -/
theorem c2_absent_value_semantics_witness :
    renderCallback [] "name" (some "anon") = ("anon", false) :=
  c2_absent_value_semantics.1 [] "name" "anon" (Or.inl rfl)

/-- C3 (amended): whitespace between the braces and the path is
insignificant, and whitespace around the fallback text (after the `|`) is
trimmed away, so `{{ path }}` matches `{{path}}` and `{{path| fb }}`
matches `{{path|fb}}`; but the `|` must immediately follow the path —
`{{ path | fallback }}`, with whitespace before the `|`, is not
recognized as a placeholder at all and is rendered verbatim — and the
fallback is the literal text up to the first `}` (it may contain spaces
or punctuation but no `}` at all; a fallback containing a single `}`
prevents recognition). -/
theorem c3_placeholder_whitespace :
    (∀ (ws1 ws2 key : List Char) (ctx : Obj),
        (∀ c ∈ ws1, isJsSpace c = true) → (∀ c ∈ ws2, isJsSpace c = true) →
        key ≠ [] → (∀ c ∈ key, isKeyChar c = true) →
        renderTemplate (String.mk ('{' :: '{' :: (ws1 ++ (key ++ (ws2 ++ ['}', '}']))))) ctx
          = renderTemplate (String.mk ('{' :: '{' :: (key ++ ['}', '}']))) ctx)
    ∧ (∀ (ws1 ws2 key fb : List Char) (ctx : Obj),
        (∀ c ∈ ws1, isJsSpace c = true) → (∀ c ∈ ws2, isJsSpace c = true) →
        key ≠ [] → (∀ c ∈ key, isKeyChar c = true) → (∀ c ∈ fb, c ≠ '}') →
        renderTemplate
            (String.mk ('{' :: '{' :: (key ++ '|' :: ((ws1 ++ fb ++ ws2) ++ ['}', '}'])))) ctx
          = renderTemplate (String.mk ('{' :: '{' :: (key ++ '|' :: (fb ++ ['}', '}'])))) ctx)
    ∧ (∀ (key fb : List Char) (ctx : Obj),
        key ≠ [] → (∀ c ∈ key, isKeyChar c = true) → (∀ c ∈ fb, c ≠ '}') →
        renderTemplate (String.mk ('{' :: '{' :: (key ++ '|' :: (fb ++ ['}', '}'])))) ctx
          = (let keyS := String.mk key
             let r := renderCallback ctx keyS (some (trimS (String.mk fb)))
             { text := String.mk r.1.data, missingRequired := if r.2 then [keyS] else [],
               placeholdersUsed := [keyS] }))
    ∧ renderTemplate "\x7b\x7b name | anon \x7d\x7d" []
        = ⟨"\x7b\x7b name | anon \x7d\x7d", [], []⟩ := by
  have hpipe_not_key : ∀ (l : List Char) c, (('|' :: l).head? = some c) → isKeyChar c = false :=
    fun l => head_cons_prop '|' l isKeyChar (by decide)
  have hfb_parse : ∀ (key fb : List Char), key ≠ [] → (∀ c ∈ key, isKeyChar c = true) →
      (∀ c ∈ fb, c ≠ '}') →
      parsePH (key ++ '|' :: (fb ++ ['}', '}'])) = some (key, some fb, []) := by
    intro key fb hk hkc hfb
    have hspec := parsePH_spec [] key ('|' :: (fb ++ ['}', '}'])) (by simp) hk hkc
      (hpipe_not_key _)
    rw [List.nil_append] at hspec
    rw [hspec]
    exact parseFb_spec key fb [] hfb
  refine ⟨?_, ?_, ?_, by decide⟩
  · intro ws1 ws2 key ctx h1 h2 hk hkc
    have htail : ∀ c, (ws2 ++ ['}', '}']).head? = some c → isKeyChar c = false := by
      cases ws2 with
      | nil => exact head_cons_prop '}' _ _ (by decide)
      | cons a l =>
          exact head_cons_prop a _ _ (space_not_keyChar a (h2 a (List.mem_cons_self a l)))
    have hL := parsePH_spec ws1 key (ws2 ++ ['}', '}']) h1 hk hkc htail
    rw [parseClose_spec key ws2 [] h2] at hL
    have hR : parsePH (key ++ ['}', '}']) = some (key, none, []) := by
      have hspec := parsePH_spec [] key ['}', '}'] (by simp) hk hkc
        (head_cons_prop '}' _ _ (by decide))
      rw [List.nil_append] at hspec
      rw [hspec]
      exact parseClose_spec key [] [] (by simp)
    rw [renderTemplate_one _ _ _ _ hL, renderTemplate_one _ _ _ _ hR]
  · intro ws1 ws2 key fb ctx h1 h2 hk hkc hfb
    have hmid : ∀ c ∈ ws1 ++ fb ++ ws2, c ≠ '}' := by
      intro c hc
      rcases List.mem_append.mp hc with hc | hc
      · rcases List.mem_append.mp hc with hc | hc
        · exact space_ne_rbrace c (h1 c hc)
        · exact hfb c hc
      · exact space_ne_rbrace c (h2 c hc)
    have hL := hfb_parse key (ws1 ++ fb ++ ws2) hk hkc hmid
    have hR := hfb_parse key fb hk hkc hfb
    rw [renderTemplate_one _ _ _ _ hL, renderTemplate_one _ _ _ _ hR]
    have htrim : trimS (String.mk (ws1 ++ fb ++ ws2)) = trimS (String.mk fb) := by
      show String.mk (trimList (ws1 ++ fb ++ ws2)) = String.mk (trimList fb)
      rw [trimList_pad ws1 fb ws2 h1 h2]
    dsimp only [Option.map]
    rw [htrim]
  · intro key fb ctx hk hkc hfb
    rw [renderTemplate_one _ _ _ _ (hfb_parse key fb hk hkc hfb)]
    dsimp only
    rw [trimS_of_keyChars key hkc]
    rfl

/-- Witness for C3: `{{ name }}` renders exactly like `{{name}}`, and
`{{name| anon }}` exactly like `{{name|anon}}`. -/
theorem c3_placeholder_whitespace_witness :
    renderTemplate "\x7b\x7b name \x7d\x7d" [("name", Value.str "x")]
        = renderTemplate "\x7b\x7bname\x7d\x7d" [("name", Value.str "x")]
    ∧ renderTemplate "\x7b\x7bname| anon \x7d\x7d" []
        = renderTemplate "\x7b\x7bname|anon\x7d\x7d" [] :=
  ⟨c3_placeholder_whitespace.1 [' '] [' '] ['n', 'a', 'm', 'e'] [("name", Value.str "x")]
      (by decide) (by decide) (by decide) (by decide),
    c3_placeholder_whitespace.2.1 [' '] [' '] ['n', 'a', 'm', 'e'] ['a', 'n', 'o', 'n'] []
      (by decide) (by decide) (by decide) (by decide) (by decide)⟩

/-- Counterexample for C3 as stated: with spaces around the `|` separator
the placeholder is not recognized at all — `{{ name | anon }}` renders
verbatim, while `{{name|anon}}` substitutes the fallback. -/
theorem c3_counterexample_spaced_pipe :
    (renderTemplate "\x7b\x7b name | anon \x7d\x7d" []).text = "\x7b\x7b name | anon \x7d\x7d"
    ∧ (renderTemplate "\x7b\x7bname|anon\x7d\x7d" []).text = "anon"
    ∧ ("\x7b\x7b name | anon \x7d\x7d" : String) ≠ "anon" :=
  ⟨by decide, by decide, by decide⟩

/-- C4: `executeRun` fails fast with the missing-variables error — whose
message names every unresolved placeholder — whenever the prepared
render's `missingRequired` is non-empty, and the external agent is never
invoked (the result does not depend on `runAgent` at all); the agent is
invoked, on exactly the rendered prompt, only when `missingRequired` is
empty. -/
theorem c4_missing_variables_fail_fast :
    ∀ (runAgent : AgentRunInput → AgentRunResult) (command : CommandRecord) (built : Obj)
      (repoRoot : String) (inMode : Option RunMode) (inCli : Option AgentCli)
      (inModel inPermissionMode : Option String) (inAllowedTools : Option (List String))
      (inSandboxMode inApprovalPolicy : Option String) (defaults? : Option ExecDefaults),
      ((prepareRun command built).missingRequired ≠ [] →
        executeRun runAgent command built repoRoot inMode inCli inModel inPermissionMode
            inAllowedTools inSandboxMode inApprovalPolicy defaults?
          = Except.error (missingVariablesMessage (prepareRun command built).missingRequired)
        ∧ ∀ runAgent2,
            executeRun runAgent2 command built repoRoot inMode inCli inModel inPermissionMode
                inAllowedTools inSandboxMode inApprovalPolicy defaults?
              = executeRun runAgent command built repoRoot inMode inCli inModel
                  inPermissionMode inAllowedTools inSandboxMode inApprovalPolicy defaults?)
      ∧ ((prepareRun command built).missingRequired = [] →
        (resolveAgentInput command (prepareRun command built).renderedPrompt repoRoot inMode
            inCli inModel inPermissionMode inAllowedTools inSandboxMode inApprovalPolicy
            defaults?).prompt = (prepareRun command built).renderedPrompt
        ∧ executeRun runAgent command built repoRoot inMode inCli inModel inPermissionMode
            inAllowedTools inSandboxMode inApprovalPolicy defaults?
          = Except.ok
              { exitCode := (runAgent (resolveAgentInput command
                  (prepareRun command built).renderedPrompt repoRoot inMode inCli inModel
                  inPermissionMode inAllowedTools inSandboxMode inApprovalPolicy
                  defaults?)).exitCode,
                stdout := (runAgent (resolveAgentInput command
                  (prepareRun command built).renderedPrompt repoRoot inMode inCli inModel
                  inPermissionMode inAllowedTools inSandboxMode inApprovalPolicy
                  defaults?)).stdout,
                stderr := (runAgent (resolveAgentInput command
                  (prepareRun command built).renderedPrompt repoRoot inMode inCli inModel
                  inPermissionMode inAllowedTools inSandboxMode inApprovalPolicy
                  defaults?)).stderr,
                prompt := (prepareRun command built).renderedPrompt,
                mode := resolveMode command inMode defaults? }) := by
  intro runAgent command built repoRoot inMode inCli inModel inPermissionMode inAllowedTools
    inSandboxMode inApprovalPolicy defaults?
  constructor
  · intro h
    have hlen : (prepareRun command built).missingRequired.length > 0 :=
      List.length_pos.mpr h
    constructor
    · unfold executeRun
      rw [if_pos hlen]
    · intro runAgent2
      unfold executeRun
      rw [if_pos hlen, if_pos hlen]
  · intro h
    have hlen : ¬ ((prepareRun command built).missingRequired.length > 0) := by
      rw [h]
      simp
    refine ⟨rfl, ?_⟩
    unfold executeRun
    rw [if_neg hlen]

/-- Witness for C4: the `hello` command against an empty context fails with
the missing-variables error naming `name`, and the agent is never
consulted. -/
theorem c4_missing_variables_fail_fast_witness :
    executeRun (fun _ => ⟨0, "", ""⟩) c4Command [] "/repo" none none none none none none none
        none
      = Except.error ("Missing template variables: name. " ++
          "Provide with --var or select an --issue/--pr/--task context.") :=
  ((c4_missing_variables_fail_fast (fun _ => ⟨0, "", ""⟩) c4Command [] "/repo" none none none
      none none none none none).1 (by decide)).1.trans
    (congrArg Except.error (by decide))

theorem splitFirstEq_none (l : List Char) (h : ∀ c ∈ l, c ≠ '=') :
    splitFirstEq l = none := by
  induction l with
  | nil => rfl
  | cons a t ih =>
      simp [splitFirstEq, h a (List.mem_cons_self a t),
        ih (fun c hc => h c (List.mem_cons_of_mem a hc))]

theorem splitFirstEq_append (k v : List Char) (h : ∀ c ∈ k, c ≠ '=') :
    splitFirstEq (k ++ '=' :: v) = some (k, v) := by
  induction k with
  | nil => simp [splitFirstEq]
  | cons a l ih =>
      simp [splitFirstEq, h a (List.mem_cons_self a l),
        ih (fun c hc => h c (List.mem_cons_of_mem a hc))]

/-- C9: `parseKeyValuePairs` splits every pair on the first `=` with
everything after it taken verbatim as the value (`expr=a=b` gives
`a=b`), fails when no `=` is present or the key is empty after trimming,
and when `coerce` is true converts the value by the fixed ordered rule
set — literal `true`/`false`/`null`, integer regex, float regex,
bracketed JSON with fallback to the raw string on parse failure, else
the raw string — while with `coerce` false the value is always the raw
string (`n=42` gives the number 42 coerced and the string `"42"`
uncoerced). -/
theorem c9_key_value_coercion :
    (∀ (jp : String → Option Value) (coerce : Bool) (k v : List Char),
        (∀ c ∈ k, c ≠ '=') → trimS (String.mk k) ≠ "" →
        parseKeyValuePairs jp [String.mk (k ++ '=' :: v)] coerce
          = Except.ok [(trimS (String.mk k),
              if coerce then parseValue jp (String.mk v) else Value.str (String.mk v))])
    ∧ (∀ (jp : String → Option Value) (coerce : Bool) (l : List Char),
        (∀ c ∈ l, c ≠ '=') →
        parseKeyValuePairs jp [String.mk l] coerce
          = Except.error ("Invalid key=value pair: " ++ String.mk l))
    ∧ (∀ (jp : String → Option Value) (coerce : Bool) (k v : List Char),
        (∀ c ∈ k, c ≠ '=') → trimS (String.mk k) = "" →
        parseKeyValuePairs jp [String.mk (k ++ '=' :: v)] coerce
          = Except.error ("Invalid key in pair: " ++ String.mk (k ++ '=' :: v)))
    ∧ (∀ (jp : String → Option Value) (raw : String),
        trimS raw = "true" → parseValue jp raw = Value.bool true)
    ∧ (∀ (jp : String → Option Value) (raw : String),
        trimS raw = "false" → parseValue jp raw = Value.bool false)
    ∧ (∀ (jp : String → Option Value) (raw : String),
        trimS raw = "null" → parseValue jp raw = Value.null)
    ∧ (∀ (jp : String → Option Value) (raw : String),
        trimS raw ≠ "true" → trimS raw ≠ "false" → trimS raw ≠ "null" →
        matchesIntRe (trimS raw) = true →
        parseValue jp raw = Value.int (toIntList (trimS raw).data))
    ∧ (∀ (jp : String → Option Value) (raw : String),
        trimS raw ≠ "true" → trimS raw ≠ "false" → trimS raw ≠ "null" →
        matchesIntRe (trimS raw) = false → matchesFloatRe (trimS raw) = true →
        parseValue jp raw = Value.float (trimS raw))
    ∧ (∀ (jp : String → Option Value) (raw : String),
        trimS raw ≠ "true" → trimS raw ≠ "false" → trimS raw ≠ "null" →
        matchesIntRe (trimS raw) = false → matchesFloatRe (trimS raw) = false →
        ((headChar (trimS raw) = some '[' && lastChar (trimS raw) = some ']') ||
          (headChar (trimS raw) = some '\x7b' && lastChar (trimS raw) = some '\x7d')) = true →
        parseValue jp raw
          = (match jp (trimS raw) with
             | some v => v
             | none => Value.str raw))
    ∧ (∀ (jp : String → Option Value) (raw : String),
        trimS raw ≠ "true" → trimS raw ≠ "false" → trimS raw ≠ "null" →
        matchesIntRe (trimS raw) = false → matchesFloatRe (trimS raw) = false →
        ((headChar (trimS raw) = some '[' && lastChar (trimS raw) = some ']') ||
          (headChar (trimS raw) = some '\x7b' && lastChar (trimS raw) = some '\x7d')) = false →
        parseValue jp raw = Value.str raw)
    ∧ (∀ jp, parseKeyValuePairs jp ["n=42"] true = Except.ok [("n", Value.int 42)])
    ∧ (∀ jp, parseKeyValuePairs jp ["n=42"] false = Except.ok [("n", Value.str "42")])
    ∧ (∀ jp, parseKeyValuePairs jp ["expr=a=b"] true
        = Except.ok [("expr", Value.str "a=b")]) := by
  refine ⟨?_, ?_, ?_, ?_, ?_, ?_, ?_, ?_, ?_, ?_,
    fun _ => rfl, fun _ => rfl, fun _ => rfl⟩
  · intro jp coerce k v hk hne
    simp [parseKeyValuePairs, splitFirstEq_append k v hk, hne, Obj.set]
  · intro jp coerce l hno
    simp [parseKeyValuePairs, splitFirstEq_none l hno]
  · intro jp coerce k v hk hemp
    simp [parseKeyValuePairs, splitFirstEq_append k v hk, hemp]
  · intro jp raw h
    simp only [parseValue, h]
    rfl
  · intro jp raw h
    simp only [parseValue, h]
    rfl
  · intro jp raw h
    simp only [parseValue, h]
    rfl
  · intro jp raw h1 h2 h3 h4
    simp only [parseValue]
    rw [if_neg h1, if_neg h2, if_neg h3, if_pos h4]
  · intro jp raw h1 h2 h3 h4 h5
    simp only [parseValue]
    rw [if_neg h1, if_neg h2, if_neg h3, if_neg (by simp [h4]), if_pos h5]
  · intro jp raw h1 h2 h3 h4 h5 h6
    simp only [parseValue]
    rw [if_neg h1, if_neg h2, if_neg h3, if_neg (by simp [h4]), if_neg (by simp [h5]),
      if_pos h6]
  · intro jp raw h1 h2 h3 h4 h5 h6
    simp only [parseValue]
    rw [if_neg h1, if_neg h2, if_neg h3, if_neg (by simp [h4]), if_neg (by simp [h5]),
      if_neg (by simp [h6])]

/-- Witness for C9: splitting on the first `=` keeps the rest verbatim,
at the concrete input `x= a=b `. -/
theorem c9_key_value_coercion_witness :
    parseKeyValuePairs (fun _ => none) [String.mk ['x', '=', ' ', 'a', '=', 'b', ' ']] false
      = Except.ok [("x", Value.str " a=b ")] :=
  (c9_key_value_coercion.1 (fun _ => none) false ['x'] [' ', 'a', '=', 'b', ' ']
      (by decide) (by decide)).trans rfl

theorem Store.update_spec (store : Store) (path : String) (fields : Obj) (doc : StoreDoc)
    (h : Store.read store path = some doc) :
    ∃ s', Store.update store path fields = Except.ok s'
      ∧ Store.read s' path
          = some ⟨doc.dtype,
              fields.foldl (fun o kv => Obj.set o kv.1 kv.2) doc.frontmatter, doc.body⟩ := by
  induction store with
  | nil => cases h
  | cons hd tl ih =>
      obtain ⟨p, d⟩ := hd
      by_cases hp : p = path
      · subst hp
        have hd : d = doc := by
          have := h
          unfold Store.read at this
          rw [if_pos rfl] at this
          injection this
        subst hd
        refine ⟨(p, ⟨d.dtype,
          fields.foldl (fun o kv => Obj.set o kv.1 kv.2) d.frontmatter, d.body⟩) :: tl, ?_, ?_⟩
        · unfold Store.update
          rw [if_pos rfl]
        · unfold Store.read
          rw [if_pos rfl]
      · have hread : Store.read tl path = some doc := by
          have := h
          unfold Store.read at this
          rw [if_neg hp] at this
          exact this
        obtain ⟨s', hupd, hread'⟩ := ih hread
        refine ⟨(p, d) :: s', ?_, ?_⟩
        · unfold Store.update
          rw [if_neg hp, hupd]
          rfl
        · unfold Store.read
          rw [if_neg hp]
          exact hread'

/-- The key list of the `remoteFields` record, in source order. -/
theorem remoteFieldsOf_keys (item : RemoteItem) (key id : String) :
    (remoteFieldsOf item key id).map Prod.fst
      = ["id", "provider", "kind", "key", "external_ref", "target_path", "repo", "number",
         "remote_state", "remote_title", "remote_author", "remote_url", "remote_updated_at",
         "last_seen_remote_updated_at"] := rfl

theorem lookupLast_eq_none_of_not_mem (fields : List (String × Value)) (k : String)
    (h : k ∉ fields.map Prod.fst) : lookupLast fields k = none := by
  induction fields with
  | nil => rfl
  | cons hd tl ih =>
      obtain ⟨k1, v1⟩ := hd
      simp only [List.map_cons, List.mem_cons] at h
      push_neg at h
      unfold lookupLast
      rw [ih h.2, if_neg (fun e => h.1 (Eq.symm e))]

theorem foldl_set_getV_not_mem (fields : List (String × Value)) (o : Obj) (k : String)
    (h : k ∉ fields.map Prod.fst) :
    (fields.foldl (fun acc kv => Obj.set acc kv.1 kv.2) o).getV k = o.getV k := by
  rw [foldl_set_getV, lookupLast_eq_none_of_not_mem fields k h]
  rfl

/-- C5 (amended): the first ensure creates the sidecar with the remote
fields plus the defaulted local fields (`local_status` `"new"`,
`sync_state` `"clean"`); every subsequent ensure merges exactly the
`remoteFields` record — the claim's thirteen remote-mirror/identity
fields plus `target_path` — into the existing frontmatter and leaves
every other key, in particular every local field, unchanged; so a
field-set of `local_status` survives a re-ensure alongside the freshly
fetched `remote_title`. -/
theorem c5_upsert_preserves_local_fields :
    (∀ (sha : String → String) (store : Store) (item : RemoteItem) (key : String),
        resolveItemKey item = Except.ok key →
        Store.read store (itemPath sha item.kind key) = none →
        upsertItemFromProvider sha store item
          = Except.ok (store ++ [(itemPath sha item.kind key,
              ⟨"item_state",
               remoteFieldsOf item key (makeItemId item key) ++
                 [("local_status", Value.str "new"), ("sync_state", Value.str "clean")],
               ""⟩)],
              itemPath sha item.kind key))
    ∧ (∀ (sha : String → String) (store : Store) (item : RemoteItem) (key : String)
        (doc : StoreDoc),
        resolveItemKey item = Except.ok key →
        Store.read store (itemPath sha item.kind key) = some doc →
        ∃ s', upsertItemFromProvider sha store item
            = Except.ok (s', itemPath sha item.kind key)
          ∧ Store.read s' (itemPath sha item.kind key)
              = some ⟨doc.dtype,
                  (remoteFieldsOf item key (makeItemId item key)).foldl
                    (fun o kv => Obj.set o kv.1 kv.2) doc.frontmatter,
                  doc.body⟩)
    ∧ (∀ (item : RemoteItem) (key id : String) (fm : Obj) (k : String),
        k ∉ (remoteFieldsOf item key id).map Prod.fst →
        ((remoteFieldsOf item key id).foldl (fun o kv => Obj.set o kv.1 kv.2) fm).getV k
          = fm.getV k)
    ∧ (∀ (item : RemoteItem) (key id : String) (k : String),
        k ∈ sidecarLocalFields → k ∉ (remoteFieldsOf item key id).map Prod.fst)
    ∧ (∀ (item : RemoteItem) (key id : String) (fm : Obj),
        (((remoteFieldsOf item key id).foldl (fun o kv => Obj.set o kv.1 kv.2) fm).getV
            "remote_title" = Value.str item.title)
        ∧ (((remoteFieldsOf item key id).foldl (fun o kv => Obj.set o kv.1 kv.2) fm).getV
            "remote_state" = Value.str (item.state.getD ""))
        ∧ (((remoteFieldsOf item key id).foldl (fun o kv => Obj.set o kv.1 kv.2) fm).getV
            "remote_author" = Value.str (item.author.getD ""))
        ∧ (((remoteFieldsOf item key id).foldl (fun o kv => Obj.set o kv.1 kv.2) fm).getV
            "remote_url" = Value.str (item.url.getD ""))
        ∧ (((remoteFieldsOf item key id).foldl (fun o kv => Obj.set o kv.1 kv.2) fm).getV
            "remote_updated_at" = Value.str item.updatedAt)
        ∧ (((remoteFieldsOf item key id).foldl (fun o kv => Obj.set o kv.1 kv.2) fm).getV
            "last_seen_remote_updated_at" = Value.str item.updatedAt)
        ∧ (((remoteFieldsOf item key id).foldl (fun o kv => Obj.set o kv.1 kv.2) fm).getV
            "id" = Value.str id)
        ∧ (((remoteFieldsOf item key id).foldl (fun o kv => Obj.set o kv.1 kv.2) fm).getV
            "provider" = Value.str (item.provider.getD ItemProviderId.local).toStr)
        ∧ (((remoteFieldsOf item key id).foldl (fun o kv => Obj.set o kv.1 kv.2) fm).getV
            "kind" = Value.str item.kind.toStr)
        ∧ (((remoteFieldsOf item key id).foldl (fun o kv => Obj.set o kv.1 kv.2) fm).getV
            "key" = Value.str key)
        ∧ (((remoteFieldsOf item key id).foldl (fun o kv => Obj.set o kv.1 kv.2) fm).getV
            "repo" = optStrToValue item.repo)
        ∧ (((remoteFieldsOf item key id).foldl (fun o kv => Obj.set o kv.1 kv.2) fm).getV
            "number" = optIntToValue item.number)
        ∧ (((remoteFieldsOf item key id).foldl (fun o kv => Obj.set o kv.1 kv.2) fm).getV
            "external_ref" = Value.str (providerItemRef item)))
    ∧ (∀ (item : RemoteItem) (key id : String),
        ((remoteFieldsOf item key id ++
            [("local_status", Value.str "new"), ("sync_state", Value.str "clean")]).getV
          "local_status" = Value.str "new")
        ∧ ((remoteFieldsOf item key id ++
            [("local_status", Value.str "new"), ("sync_state", Value.str "clean")]).getV
          "sync_state" = Value.str "clean")) := by
  refine ⟨?_, ?_, ?_, ?_, ?_, ?_⟩
  · intro sha store item key hk hread
    simp only [upsertItemFromProvider, hk, hread, Store.create, Except.mapError]
  · intro sha store item key doc hk hread
    obtain ⟨s', hupd, hread'⟩ := Store.update_spec store (itemPath sha item.kind key)
      (remoteFieldsOf item key (makeItemId item key)) doc hread
    refine ⟨s', ?_, hread'⟩
    simp only [upsertItemFromProvider, hk, hread, hupd, Except.mapError]
  · intro item key id fm k h
    exact foldl_set_getV_not_mem _ fm k h
  · intro item key id k hk
    rw [remoteFieldsOf_keys]
    fin_cases hk <;> decide
  · intro item key id fm
    simp only [foldl_set_getV]
    exact ⟨rfl, rfl, rfl, rfl, rfl, rfl, rfl, rfl, rfl, rfl, rfl, rfl, rfl⟩
  · intro item key id
    exact ⟨rfl, rfl⟩

/-- Witness for C5: the first ensure creates the defaulted sidecar, and
after ensure → field-set → re-ensure the sidecar shows both the freshly
fetched `remote_title` and the manually set `local_status`. -/
theorem c5_upsert_preserves_local_fields_witness :
    upsertItemFromProvider c5Sha [] c5GhA
      = Except.ok ([("items/issue-123.md",
          ⟨"item_state",
           remoteFieldsOf c5GhA "123" (makeItemId c5GhA "123") ++
             [("local_status", Value.str "new"), ("sync_state", Value.str "clean")],
           ""⟩)],
          "items/issue-123.md")
    ∧ (Store.read c5S3 "items/issue-123.md").map
        (fun d => (d.frontmatter.getV "remote_title", d.frontmatter.getV "local_status"))
      = some (Value.str "Fresh title", Value.str "in_progress") :=
  ⟨c5_upsert_preserves_local_fields.1 c5Sha [] c5GhA "123" rfl rfl, rfl⟩

/-- Counterexample for C5 as stated: a subsequent ensure also replaces
`target_path`, a field that appears in neither of the claim's two lists,
so the ensure does not replace *only* the thirteen listed fields. -/
theorem c5_counterexample_target_path :
    upsertItemFromProvider c5Sha c5T1 c5TaskB = Except.ok (c5T2, "items/task-7.md")
    ∧ (Store.read c5T1 "items/task-7.md").map (fun d => d.frontmatter.getV "target_path")
        = some (Value.str "tasks/a.md")
    ∧ (Store.read c5T2 "items/task-7.md").map (fun d => d.frontmatter.getV "target_path")
        = some (Value.str "tasks/b.md")
    ∧ Value.str "tasks/a.md" ≠ Value.str "tasks/b.md"
    ∧ "target_path" ∉ c5ClaimReplacedFields
    ∧ "target_path" ∉ sidecarLocalFields :=
  ⟨rfl, rfl, rfl,
    by
      intro h
      injection h with h2
      exact absurd h2 (by decide),
    by decide, by decide⟩
